import Mathlib

/-!
# mquickjs peripheral layer: WS2812 LED driver and GPIO driver

A shallow embedding of `src/mqjs_led.c` and `src/mqjs_gpio.c`.

* C `int` values are `Int`, `uint8_t` values are `Nat` below 256, `size_t` is `Nat`.
* Global C variables become fields of an explicit state record that every
  function receives and returns.
* Calls into the ESP-IDF drivers are recorded in a call log kept in the state;
  the status codes those calls return are parameters of the embedding.
* Log output (`ESP_LOGx`, `printf`) has no effect on the state and is left out.
* The source has an ESP build and a stub build, selected by `ESP_PLATFORM`. The LED
  driver is embedded in its ESP build; the GPIO driver in both, as `Esp` and `Stub`.
-/

namespace Mqjs

/-! ## WS2812 encoder (`src/mqjs_led.c`, ESP build) -/

/-- Ticks of the high pulse of a 0 bit (`WS2812_T0H_TICKS`). -/
def WS2812_T0H_TICKS : Nat := 4
/-- Ticks of the low pulse of a 0 bit (`WS2812_T0L_TICKS`). -/
def WS2812_T0L_TICKS : Nat := 9
/-- Ticks of the high pulse of a 1 bit (`WS2812_T1H_TICKS`). -/
def WS2812_T1H_TICKS : Nat := 8
/-- Ticks of the low pulse of a 1 bit (`WS2812_T1L_TICKS`). -/
def WS2812_T1L_TICKS : Nat := 5
/-- Tick rate of the RMT channel (`RMT_RESOLUTION_HZ`). -/
def RMT_RESOLUTION_HZ : Nat := 10000000

/-- Nanoseconds per RMT tick at `RMT_RESOLUTION_HZ`. -/
def NS_PER_TICK : Nat := 1000000000 / RMT_RESOLUTION_HZ

/-- One RMT symbol: two consecutive (level, duration) pulses (`rmt_symbol_word_t`). -/
structure rmt_symbol_word_t where
  level0 : Nat
  duration0 : Nat
  level1 : Nat
  duration1 : Nat
deriving DecidableEq

/-- The value `RMT_ENCODING_RESET` of `rmt_encode_state_t`: no flag set. -/
def RMT_ENCODING_RESET : Nat := 0
/-- The flag `RMT_ENCODING_COMPLETE` of `rmt_encode_state_t`. -/
def RMT_ENCODING_COMPLETE : Nat := 1
/-- The flag `RMT_ENCODING_MEM_FULL` of `rmt_encode_state_t`. -/
def RMT_ENCODING_MEM_FULL : Nat := 2

/-- What one call of an `encode` function pointer yields: the encoder object and the
channel after the call, the returned symbol count and the value stored in `*ret_state`. -/
structure encode_result (E Ch : Type) where
  encoder : E
  channel : Ch
  encoded : Nat
  ret_state : Nat
deriving DecidableEq

/-- The function pointers of an `rmt_encoder_t` that the driver uses: `encode` and `reset`.
`E` is the encoder object, `Ch` the channel written to, `D` the element type of the data. -/
structure rmt_encoder_t (E Ch D : Type) where
  encode : E → Ch → List D → encode_result E Ch
  reset : E → E

/-- The struct `ws2812_encoder_t`: the two sub-encoders, the phase `state`
(0 = bytes, 1 = reset code) and the reset symbol. -/
structure ws2812_encoder_t (B C : Type) where
  bytes_encoder : B
  copy_encoder : C
  state : Nat
  reset_code : rmt_symbol_word_t
deriving DecidableEq

section encoder
variable {B C Ch : Type}

/-- The part of `ws2812_encode` from label `case 1:` to `out:`; `encoded` and `state`
are the values of the local variables on entry. -/
def ws2812_encode_case1 (ce : rmt_encoder_t C Ch rmt_symbol_word_t)
    (ws : ws2812_encoder_t B C) (channel : Ch) (encoded state : Nat) :
    encode_result (ws2812_encoder_t B C) Ch :=
  let r := ce.encode ws.copy_encoder channel [ws.reset_code]
  let ws := { ws with copy_encoder := r.encoder }
  let encoded := encoded + r.encoded
  let session_state := r.ret_state
  let ws := if session_state &&& RMT_ENCODING_COMPLETE ≠ 0 then { ws with state := 0 } else ws
  let state := if session_state &&& RMT_ENCODING_COMPLETE ≠ 0
    then state ||| RMT_ENCODING_COMPLETE else state
  let state := if session_state &&& RMT_ENCODING_MEM_FULL ≠ 0
    then state ||| RMT_ENCODING_MEM_FULL else state
  ⟨ws, r.channel, encoded, state⟩

/-- The function `ws2812_encode`: a `switch` on the phase with fall-through from
`case 0` into `case 1`; any other phase value goes straight to `out:`. -/
def ws2812_encode (be : rmt_encoder_t B Ch Nat) (ce : rmt_encoder_t C Ch rmt_symbol_word_t)
    (ws : ws2812_encoder_t B C) (channel : Ch) (primary_data : List Nat) :
    encode_result (ws2812_encoder_t B C) Ch :=
  let state := RMT_ENCODING_RESET
  let encoded := 0
  match ws.state with
  | 0 =>
    let r := be.encode ws.bytes_encoder channel primary_data
    let ws := { ws with bytes_encoder := r.encoder }
    let encoded := encoded + r.encoded
    let session_state := r.ret_state
    let ws := if session_state &&& RMT_ENCODING_COMPLETE ≠ 0 then { ws with state := 1 } else ws
    if session_state &&& RMT_ENCODING_MEM_FULL ≠ 0 then
      ⟨ws, r.channel, encoded, state ||| RMT_ENCODING_MEM_FULL⟩
    else
      ws2812_encode_case1 ce ws r.channel encoded state
  | 1 => ws2812_encode_case1 ce ws channel encoded state
  | _ => ⟨ws, channel, encoded, state⟩

/-- The function `ws2812_reset`: resets both sub-encoders and forces phase 0. -/
def ws2812_reset (be : rmt_encoder_t B Ch Nat) (ce : rmt_encoder_t C Ch rmt_symbol_word_t)
    (ws : ws2812_encoder_t B C) : ws2812_encoder_t B C :=
  { ws with
    bytes_encoder := be.reset ws.bytes_encoder
    copy_encoder := ce.reset ws.copy_encoder
    state := 0 }

end encoder

/-! ### The ESP-IDF sub-encoders and the transmit channel -/

/-- Modelled from the spec: the transmit channel as the encoders see it, which is
ESP-IDF driver state and not part of `src/`. `mem` holds the symbols
written into the hardware symbol buffer during the current call of the top-level
encoder and `mem_have` is the number of symbols the buffer can still take. -/
structure rmt_channel where
  mem : List rmt_symbol_word_t
  mem_have : Nat
deriving DecidableEq

/-- Modelled from the spec: the object behind the handle that `rmt_new_bytes_encoder`
returns (ESP-IDF, not part of `src/`): the `rmt_bytes_encoder_config_t` it was created
with and the position at which a truncated encoding session resumes. -/
structure rmt_bytes_encoder_t where
  bit0 : rmt_symbol_word_t
  bit1 : rmt_symbol_word_t
  msb_first : Bool
  last_bit_index : Nat
  last_byte_index : Nat
deriving DecidableEq

/-- Modelled from the spec: the symbol the byte encoder emits for bit `bit_index` (in
transmit order) of byte `byte_index`: with `msb_first` the most significant bit goes
first; a 0 bit becomes the configured `bit0` symbol and a 1 bit the `bit1` symbol. -/
def rmt_bytes_symbol (enc : rmt_bytes_encoder_t) (data : List Nat)
    (byte_index bit_index : Nat) : rmt_symbol_word_t :=
  let cur_byte := data.getD byte_index 0
  let bit := if enc.msb_first then (cur_byte >>> (7 - bit_index)) &&& 1
    else (cur_byte >>> bit_index) &&& 1
  if bit ≠ 0 then enc.bit1 else enc.bit0

/-- Modelled from the spec: the emit loop of the byte encoder, which writes `len`
symbols starting at the given byte and bit position and returns them with the
position reached. -/
def rmt_bytes_emit (enc : rmt_bytes_encoder_t) (data : List Nat) :
    Nat → Nat → Nat → List rmt_symbol_word_t × Nat × Nat
  | 0, byte_index, bit_index => ([], byte_index, bit_index)
  | len + 1, byte_index, bit_index =>
    let sym := rmt_bytes_symbol enc data byte_index bit_index
    let next := if bit_index + 1 ≥ 8 then (byte_index + 1, 0) else (byte_index, bit_index + 1)
    let rest := rmt_bytes_emit enc data len next.1 next.2
    (sym :: rest.1, rest.2)

/-- Modelled from the spec: the `encode` function of the byte encoder (ESP-IDF
`rmt_encode_bytes`, not part of `src/`). It resumes at the saved position, writes as
many of the remaining bit symbols as the buffer can take, saves the position when the
buffer filled before all bits were encoded, and otherwise rewinds and reports
`RMT_ENCODING_COMPLETE`; it reports `RMT_ENCODING_MEM_FULL` when no room is left. -/
def rmt_encode_bytes (enc : rmt_bytes_encoder_t) (channel : rmt_channel)
    (primary_data : List Nat) : encode_result rmt_bytes_encoder_t rmt_channel :=
  let byte_index := enc.last_byte_index
  let bit_index := enc.last_bit_index
  let mem_want := primary_data.length * 8 - (byte_index * 8 + bit_index)
  let mem_have := channel.mem_have
  let encoding_truncated := decide (mem_have < mem_want)
  let encoding_space_free := decide (mem_have > mem_want)
  let len := min mem_want mem_have
  let out := rmt_bytes_emit enc primary_data len byte_index bit_index
  let channel := { channel with mem := channel.mem ++ out.1, mem_have := mem_have - len }
  let enc := if encoding_truncated
    then { enc with last_byte_index := out.2.1, last_bit_index := out.2.2 }
    else { enc with last_byte_index := 0, last_bit_index := 0 }
  let state := if encoding_truncated then RMT_ENCODING_RESET else RMT_ENCODING_COMPLETE
  let state := if encoding_space_free then state else state ||| RMT_ENCODING_MEM_FULL
  ⟨enc, channel, len, state⟩

/-- Modelled from the spec: the object behind the handle that `rmt_new_copy_encoder`
returns (ESP-IDF, not part of `src/`): the index at which a truncated copy resumes. -/
structure rmt_copy_encoder_t where
  last_symbol_index : Nat
deriving DecidableEq

/-- Modelled from the spec: the `encode` function of the copy encoder (ESP-IDF
`rmt_encode_copy`, not part of `src/`): it copies the given symbols unchanged into the
buffer, resuming where a truncated session stopped, with the same reporting of
completion and of a full buffer as the byte encoder. -/
def rmt_encode_copy (enc : rmt_copy_encoder_t) (channel : rmt_channel)
    (primary_data : List rmt_symbol_word_t) : encode_result rmt_copy_encoder_t rmt_channel :=
  let symbol_index := enc.last_symbol_index
  let mem_want := primary_data.length - symbol_index
  let mem_have := channel.mem_have
  let encoding_truncated := decide (mem_have < mem_want)
  let encoding_space_free := decide (mem_have > mem_want)
  let len := min mem_want mem_have
  let out := (primary_data.drop symbol_index).take len
  let channel := { channel with mem := channel.mem ++ out, mem_have := mem_have - len }
  let enc : rmt_copy_encoder_t := if encoding_truncated
    then { last_symbol_index := symbol_index + len }
    else { last_symbol_index := 0 }
  let state := if encoding_truncated then RMT_ENCODING_RESET else RMT_ENCODING_COMPLETE
  let state := if encoding_space_free then state else state ||| RMT_ENCODING_MEM_FULL
  ⟨enc, channel, len, state⟩

/-- The function pointers of the byte encoder. -/
def rmt_bytes_encoder : rmt_encoder_t rmt_bytes_encoder_t rmt_channel Nat where
  encode := rmt_encode_bytes
  reset := fun enc => { enc with last_byte_index := 0, last_bit_index := 0 }

/-- The function pointers of the copy encoder. -/
def rmt_copy_encoder : rmt_encoder_t rmt_copy_encoder_t rmt_channel rmt_symbol_word_t where
  encode := rmt_encode_copy
  reset := fun _ => { last_symbol_index := 0 }

/-- The WS2812 encoder object with the ESP-IDF sub-encoders. -/
abbrev ws2812_t := ws2812_encoder_t rmt_bytes_encoder_t rmt_copy_encoder_t

/-- The `bytes_cfg` that `led_hw_init` passes to `rmt_new_bytes_encoder`. -/
def bytes_cfg : rmt_bytes_encoder_t where
  bit0 := { level0 := 1, duration0 := WS2812_T0H_TICKS, level1 := 0, duration1 := WS2812_T0L_TICKS }
  bit1 := { level0 := 1, duration0 := WS2812_T1H_TICKS, level1 := 0, duration1 := WS2812_T1L_TICKS }
  msb_first := true
  last_bit_index := 0
  last_byte_index := 0

/-- The encoder object that `led_hw_init` builds: `calloc` zeroes `state`, the two
sub-encoders are fresh, and `reset_code` is the literal of line 155. -/
def ws2812_new : ws2812_t where
  bytes_encoder := bytes_cfg
  copy_encoder := { last_symbol_index := 0 }
  state := 0
  reset_code := { level0 := 0, duration0 := 280, level1 := 0, duration1 := 280 }

/-- Modelled from the spec: the transmit loop of the RMT driver (ESP-IDF, not part of
`src/`). It calls the encoder with an empty buffer of the next capacity in `caps`,
collects what the call wrote, and calls again with the preserved encoder object until
a call reports `RMT_ENCODING_COMPLETE`. Returns the encoder object, the symbols put on
the wire, and whether completion was reported before `caps` ran out. -/
def rmt_tx_run (ws : ws2812_t) (data : List Nat) :
    List Nat → ws2812_t × List rmt_symbol_word_t × Bool
  | [] => (ws, [], false)
  | c :: caps =>
    let r := ws2812_encode rmt_bytes_encoder rmt_copy_encoder ws { mem := [], mem_have := c } data
    if r.ret_state &&& RMT_ENCODING_COMPLETE ≠ 0 then (r.encoder, r.channel.mem, true)
    else
      let rest := rmt_tx_run r.encoder data caps
      (rest.1, r.channel.mem ++ rest.2.1, rest.2.2)

/-! ### The WS2812 frame as the specification words it, and its decoding -/

/-- The symbol of one logical bit: a 0 bit is high for `T0H` then low for `T0L`,
a 1 bit is high for `T1H` then low for `T1L`. -/
def ws2812_bit_symbol (bit : Bool) : rmt_symbol_word_t :=
  if bit then
    { level0 := 1, duration0 := WS2812_T1H_TICKS, level1 := 0, duration1 := WS2812_T1L_TICKS }
  else
    { level0 := 1, duration0 := WS2812_T0H_TICKS, level1 := 0, duration1 := WS2812_T0L_TICKS }

/-- The eight symbols of one byte, most significant bit first. -/
def ws2812_byte_symbols (byte : Nat) : List rmt_symbol_word_t :=
  [7, 6, 5, 4, 3, 2, 1, 0].map fun i => ws2812_bit_symbol (decide (byte / 2 ^ i % 2 = 1))

/-- The reference frame of a buffer: the bit symbols of every byte in order, followed
by exactly one reset symbol. -/
def ws2812_frame (data : List Nat) : List rmt_symbol_word_t :=
  data.flatMap ws2812_byte_symbols ++ [ws2812_new.reset_code]

/-- Ticks for which a symbol drives the line high. -/
def high_ticks (s : rmt_symbol_word_t) : Nat :=
  (if s.level0 = 1 then s.duration0 else 0) + (if s.level1 = 1 then s.duration1 else 0)

/-- Ticks for which a symbol drives the line low. -/
def low_ticks (s : rmt_symbol_word_t) : Nat :=
  (if s.level0 = 0 then s.duration0 else 0) + (if s.level1 = 0 then s.duration1 else 0)

/-- Majority pulse width classification: a symbol is a 1 bit when its high pulse is
longer than its low pulse. -/
def classify_symbol (s : rmt_symbol_word_t) : Nat :=
  if high_ticks s > low_ticks s then 1 else 0

/-- Value of a bit string read most significant bit first. -/
def bits_to_byte (bits : List Nat) : Nat :=
  bits.foldl (fun acc bit => 2 * acc + bit) 0

/-- Regroups a bit string into bytes, eight bits at a time, most significant first. -/
def bits_to_bytes : List Nat → List Nat
  | b7 :: b6 :: b5 :: b4 :: b3 :: b2 :: b1 :: b0 :: rest =>
    bits_to_byte [b7, b6, b5, b4, b3, b2, b1, b0] :: bits_to_bytes rest
  | _ => []

/-- Decodes a stream of bit symbols into bytes. -/
def ws2812_decode (symbols : List rmt_symbol_word_t) : List Nat :=
  bits_to_bytes (symbols.map classify_symbol)

/-- Symbol the byte encoder emits at flat position `p` of the bit stream. -/
def rmt_bytes_symbol_at (enc : rmt_bytes_encoder_t) (data : List Nat) (p : Nat) :
    rmt_symbol_word_t :=
  rmt_bytes_symbol enc data (p / 8) (p % 8)

/-- The encoder object of `led_hw_init` at a given resume position and phase. -/
def ws2812_at (byte_index bit_index state : Nat) : ws2812_t :=
  { ws2812_new with
    bytes_encoder := { bytes_cfg with last_byte_index := byte_index, last_bit_index := bit_index }
    state := state }

/-! ## LED channel manager (`src/mqjs_led.c`, ESP build) -/

/-- The status `ESP_OK` of `esp_err_t`. -/
def ESP_OK : Int := 0

/-- Calls into the RMT driver and the allocator that the LED code makes; the state
keeps them in the order made. The three calls of `ws2812_delete` are
`rmt_del_encoder_bytes`, `rmt_del_encoder_copy` and `free_ws`. -/
inductive rmt_call where
  | rmt_disable (chan : Nat)
  | rmt_del_channel (chan : Nat)
  | rmt_new_tx_channel (gpio_num : Int) (mem_block_symbols resolution_hz trans_queue_depth : Nat)
  | calloc_ws
  | rmt_new_bytes_encoder (cfg : rmt_bytes_encoder_t)
  | rmt_new_copy_encoder
  | rmt_del_encoder_bytes
  | rmt_del_encoder_copy
  | free_ws
  | rmt_enable (chan : Nat)
  | rmt_transmit (chan : Nat) (encoder : Option ws2812_t) (payload : List Nat)
  | rmt_tx_wait_all_done (chan : Nat)
deriving DecidableEq

/-- The file-scope variables of the LED driver, plus the log of driver calls.
A `NULL` handle is `none`. -/
structure led_state where
  led_rmt_chan : Option Nat
  led_rmt_encoder : Option ws2812_t
  led_gpio_pin : Int
  led_saved_r : Nat
  led_saved_g : Nat
  led_saved_b : Nat
  calls : List rmt_call
deriving DecidableEq

/-- The LED state at program start, from the initialisers of the variables. -/
def led_boot : led_state where
  led_rmt_chan := none
  led_rmt_encoder := none
  led_gpio_pin := -1
  led_saved_r := 64
  led_saved_g := 64
  led_saved_b := 64
  calls := []

/-- What the driver and the allocator answer during one `led_hw_init`: the status of
each call, and the handle `rmt_new_tx_channel` stores through its out parameter when it
succeeds (it stores nothing when it fails). -/
structure led_init_outcome where
  new_tx_channel_ret : Int
  new_tx_channel_handle : Nat
  calloc_ok : Bool
  new_bytes_encoder_ret : Int
  new_copy_encoder_ret : Int
  enable_ret : Int
deriving DecidableEq

/-- The driver calls of `ws2812_delete`. -/
def ws2812_delete : List rmt_call :=
  [rmt_call.rmt_del_encoder_bytes, rmt_call.rmt_del_encoder_copy, rmt_call.free_ws]

/-- The function `led_hw_init` of the ESP build; returns the new state and the C
return value. -/
def led_hw_init (s : led_state) (gpio_pin : Int) (o : led_init_outcome) : led_state × Int :=
  let s := match s.led_rmt_chan with
    | some chan =>
      { s with
        calls := s.calls ++ [rmt_call.rmt_disable chan, rmt_call.rmt_del_channel chan]
        led_rmt_chan := none }
    | none => s
  let s := match s.led_rmt_encoder with
    | some _ => { s with calls := s.calls ++ ws2812_delete, led_rmt_encoder := none }
    | none => s
  let s := { s with
    calls := s.calls ++ [rmt_call.rmt_new_tx_channel gpio_pin 64 RMT_RESOLUTION_HZ 4] }
  if o.new_tx_channel_ret ≠ ESP_OK then (s, -1) else
  let chan := o.new_tx_channel_handle
  let s := { s with led_rmt_chan := some chan }
  let s := { s with calls := s.calls ++ [rmt_call.calloc_ws] }
  if !o.calloc_ok then
    ({ s with calls := s.calls ++ [rmt_call.rmt_del_channel chan], led_rmt_chan := none }, -1) else
  let s := { s with calls := s.calls ++ [rmt_call.rmt_new_bytes_encoder bytes_cfg] }
  if o.new_bytes_encoder_ret ≠ ESP_OK then
    ({ s with
        calls := s.calls ++ [rmt_call.free_ws, rmt_call.rmt_del_channel chan]
        led_rmt_chan := none }, -1) else
  let s := { s with calls := s.calls ++ [rmt_call.rmt_new_copy_encoder] }
  if o.new_copy_encoder_ret ≠ ESP_OK then
    ({ s with
        calls := s.calls ++
          [rmt_call.rmt_del_encoder_bytes, rmt_call.free_ws, rmt_call.rmt_del_channel chan]
        led_rmt_chan := none }, -1) else
  let s := { s with led_rmt_encoder := some ws2812_new }
  let s := { s with calls := s.calls ++ [rmt_call.rmt_enable chan] }
  if o.enable_ret ≠ ESP_OK then
    ({ s with
        calls := s.calls ++ ws2812_delete ++ [rmt_call.rmt_del_channel chan]
        led_rmt_encoder := none
        led_rmt_chan := none }, -1) else
  ({ s with led_gpio_pin := gpio_pin }, 0)

/-- The local array `grb` of `led_hw_set`: WS2812 takes green first. -/
def grb (r g b : Nat) : List Nat := [g, r, b]

/-- The function `led_hw_set` of the ESP build; `r`, `g`, `b` are `uint8_t`. -/
def led_hw_set (s : led_state) (r g b : Nat) : led_state :=
  match s.led_rmt_chan with
  | none => s
  | some chan =>
    { s with calls := s.calls ++
        [rmt_call.rmt_transmit chan s.led_rmt_encoder (grb r g b),
          rmt_call.rmt_tx_wait_all_done chan] }

/-- Conversion of an `int` to `uint8_t`. -/
def to_uint8 (x : Int) : Nat := (x % 256).toNat

/-- The clamp expression of `js_led_rgb`: `(x < 0) ? 0 : (x > 255) ? 255 : x`. -/
def clamp255 (x : Int) : Int := if x < 0 then 0 else if x > 255 then 255 else x

/-- Classes of script errors the bindings raise; `pending` is the exception a failed
argument conversion left in the context (the binding returns `JS_EXCEPTION`). -/
inductive js_error where
  | TypeError
  | InternalError
  | pending
deriving DecidableEq

/-- Value a binding returns to the script engine. -/
inductive js_result where
  | JS_UNDEFINED
  | int32 (v : Int)
  | exception (e : js_error)
deriving DecidableEq

/-- The binding `js_led_init`; `argv` holds the `int` values `JS_ToInt32` yields for
the arguments passed. -/
def js_led_init (s : led_state) (argv : List Int) (o : led_init_outcome) :
    led_state × js_result :=
  let gpio := match argv with
    | a0 :: _ => a0
    | [] => 38
  let r := led_hw_init s gpio o
  if r.2 < 0 then (r.1, .exception .InternalError) else (r.1, .JS_UNDEFINED)

/-- The binding `js_led_rgb`; `argv` holds the `int` values `JS_ToInt32` yields for
the arguments passed, so `argc` is its length. -/
def js_led_rgb (s : led_state) (argv : List Int) : led_state × js_result :=
  let r := if argv.length ≥ 1 then argv.getD 0 255 else 255
  let g := if argv.length ≥ 2 then argv.getD 1 255 else 255
  let b := if argv.length ≥ 3 then argv.getD 2 255 else 255
  let r := clamp255 r
  let g := clamp255 g
  let b := clamp255 b
  let s := { s with
    led_saved_r := to_uint8 r, led_saved_g := to_uint8 g, led_saved_b := to_uint8 b }
  (led_hw_set s (to_uint8 r) (to_uint8 g) (to_uint8 b), .JS_UNDEFINED)

/-- The binding `js_led_on`. -/
def js_led_on (s : led_state) : led_state × js_result :=
  (led_hw_set s s.led_saved_r s.led_saved_g s.led_saved_b, .JS_UNDEFINED)

/-- The binding `js_led_off`. -/
def js_led_off (s : led_state) : led_state × js_result :=
  (led_hw_set s 0 0 0, .JS_UNDEFINED)

/-- Runs `led.off()` the given number of times. -/
def led_off_times : Nat → led_state → led_state
  | 0, s => s
  | n + 1, s => led_off_times n (js_led_off s).1

/-- The payloads handed to `rmt_transmit`, in order. -/
def transmitted : List rmt_call → List (List Nat)
  | [] => []
  | rmt_call.rmt_transmit _ _ payload :: rest => payload :: transmitted rest
  | _ :: rest => transmitted rest

/-! ## GPIO driver (`src/mqjs_gpio.c`) -/

/-- The array bound `MAX_GPIO_PINS` (written as the literal 64 in the stub build). -/
def MAX_GPIO_PINS : Int := 64

namespace Esp

/-- Directions of `gpio_config_t.mode` that the driver uses. -/
inductive gpio_mode_t where
  | GPIO_MODE_INPUT
  | GPIO_MODE_OUTPUT
deriving DecidableEq

/-- Pull modes passed to `gpio_set_pull_mode`. -/
inductive gpio_pull_mode_t where
  | GPIO_PULLUP_ONLY
  | GPIO_PULLDOWN_ONLY
  | GPIO_FLOATING
deriving DecidableEq

/-- Calls into the ESP-IDF GPIO driver, with their arguments. -/
inductive gpio_call where
  | gpio_config (pin : Int) (mode : gpio_mode_t) (pull_up_en pull_down_en : Bool)
  | gpio_set_level (pin : Int) (level : Int)
  | gpio_get_level (pin : Int)
  | gpio_set_pull_mode (pin : Int) (pull : gpio_pull_mode_t)
deriving DecidableEq

/-- The pin table `gpio_initialized` of the ESP build, plus the log of driver calls. -/
structure gpio_state where
  gpio_initialized : List Nat
  calls : List gpio_call
deriving DecidableEq

/-- The GPIO state at program start: 64 cleared flags. -/
def gpio_boot : gpio_state where
  gpio_initialized := List.replicate 64 0
  calls := []

/-- The guard `pin < 0 || pin >= MAX_GPIO_PINS || !gpio_initialized[pin]`. -/
def gpio_not_ready (s : gpio_state) (pin : Int) : Bool :=
  decide (pin < 0) || decide (pin ≥ MAX_GPIO_PINS) || (s.gpio_initialized.getD pin.toNat 0 == 0)

/-- The function `gpio_hw_init` of the ESP build; `config_ret` is what `gpio_config`
returns if it is called. -/
def gpio_hw_init (s : gpio_state) (pin : Int) (mode_str : String) (config_ret : Int) :
    gpio_state × Int :=
  if pin < 0 ∨ pin ≥ MAX_GPIO_PINS then (s, -1) else
  let io_conf : Option (gpio_mode_t × Bool × Bool) :=
    if mode_str = "out" then some (.GPIO_MODE_OUTPUT, false, false)
    else if mode_str = "in" then some (.GPIO_MODE_INPUT, false, false)
    else if mode_str = "in_pullup" then some (.GPIO_MODE_INPUT, true, false)
    else if mode_str = "in_pulldown" then some (.GPIO_MODE_INPUT, false, true)
    else none
  match io_conf with
  | none => (s, -1)
  | some (mode, pull_up_en, pull_down_en) =>
    let s := { s with calls := s.calls ++ [gpio_call.gpio_config pin mode pull_up_en pull_down_en] }
    if config_ret ≠ ESP_OK then (s, -1) else
    ({ s with gpio_initialized := s.gpio_initialized.set pin.toNat 1 }, 0)

/-- The function `gpio_hw_write` of the ESP build; `set_level_ret` is what
`gpio_set_level` returns if it is called. -/
def gpio_hw_write (s : gpio_state) (pin level : Int) (set_level_ret : Int) : gpio_state × Int :=
  if gpio_not_ready s pin then (s, -1) else
  let s := { s with
    calls := s.calls ++ [gpio_call.gpio_set_level pin (if level ≠ 0 then 1 else 0)] }
  if set_level_ret ≠ ESP_OK then (s, -1) else (s, 0)

/-- The function `gpio_hw_read` of the ESP build; `pad_level` is what `gpio_get_level`
returns if it is called. -/
def gpio_hw_read (s : gpio_state) (pin : Int) (pad_level : Int) : gpio_state × Int :=
  if gpio_not_ready s pin then (s, -1) else
  ({ s with calls := s.calls ++ [gpio_call.gpio_get_level pin] }, pad_level)

/-- The function `gpio_hw_set_pull` of the ESP build. -/
def gpio_hw_set_pull (s : gpio_state) (pin : Int) (pull_str : String) : gpio_state × Int :=
  if gpio_not_ready s pin then (s, -1) else
  if pull_str = "up" then
    ({ s with calls := s.calls ++ [gpio_call.gpio_set_pull_mode pin .GPIO_PULLUP_ONLY] }, 0)
  else if pull_str = "down" then
    ({ s with calls := s.calls ++ [gpio_call.gpio_set_pull_mode pin .GPIO_PULLDOWN_ONLY] }, 0)
  else if pull_str = "none" then
    ({ s with calls := s.calls ++ [gpio_call.gpio_set_pull_mode pin .GPIO_FLOATING] }, 0)
  else (s, -1)

/-- One call of a GPIO driver function of the ESP build, with the answers of the
hardware calls it may make. -/
inductive gpio_op where
  | init (pin : Int) (mode_str : String) (config_ret : Int)
  | write (pin level : Int) (set_level_ret : Int)
  | read (pin : Int) (pad_level : Int)
  | set_pull (pin : Int) (pull_str : String)
deriving DecidableEq

/-- Executes one driver call. -/
def gpio_step (s : gpio_state) : gpio_op → gpio_state × Int
  | .init pin mode_str config_ret => gpio_hw_init s pin mode_str config_ret
  | .write pin level set_level_ret => gpio_hw_write s pin level set_level_ret
  | .read pin pad_level => gpio_hw_read s pin pad_level
  | .set_pull pin pull_str => gpio_hw_set_pull s pin pull_str

/-- Executes a sequence of driver calls. -/
def gpio_run (s : gpio_state) : List gpio_op → gpio_state
  | [] => s
  | op :: ops => gpio_run (gpio_step s op).1 ops

/-- Whether some `gpio_hw_init` call for pin `p` in the sequence returned 0. -/
def init_succeeded (p : Int) (s : gpio_state) : List gpio_op → Bool
  | [] => false
  | op :: ops =>
    (match op with
      | .init pin mode_str config_ret =>
        decide (pin = p) && decide ((gpio_hw_init s pin mode_str config_ret).2 = 0)
      | _ => false) || init_succeeded p (gpio_step s op).1 ops

end Esp

namespace Stub

/-- The arrays `gpio_initialized` and `gpio_levels` of the stub build. -/
structure gpio_state where
  gpio_initialized : List Nat
  gpio_levels : List Int
deriving DecidableEq

/-- The GPIO state at program start: 64 cleared flags and 64 zero levels. -/
def gpio_boot : gpio_state where
  gpio_initialized := List.replicate 64 0
  gpio_levels := List.replicate 64 0

/-- The guard `pin < 0 || pin >= 64 || !gpio_initialized[pin]`. -/
def gpio_not_ready (s : gpio_state) (pin : Int) : Bool :=
  decide (pin < 0) || decide (pin ≥ 64) || (s.gpio_initialized.getD pin.toNat 0 == 0)

/-- The function `gpio_hw_init` of the stub build. -/
def gpio_hw_init (s : gpio_state) (pin : Int) (_mode_str : String) : gpio_state × Int :=
  if pin < 0 ∨ pin ≥ 64 then (s, -1) else
  ({ s with gpio_initialized := s.gpio_initialized.set pin.toNat 1 }, 0)

/-- The function `gpio_hw_write` of the stub build. -/
def gpio_hw_write (s : gpio_state) (pin level : Int) : gpio_state × Int :=
  if gpio_not_ready s pin then (s, -1) else
  ({ s with gpio_levels := s.gpio_levels.set pin.toNat level }, 0)

/-- The function `gpio_hw_read` of the stub build. -/
def gpio_hw_read (s : gpio_state) (pin : Int) : gpio_state × Int :=
  if gpio_not_ready s pin then (s, -1) else
  (s, s.gpio_levels.getD pin.toNat 0)

/-- The function `gpio_hw_set_pull` of the stub build. -/
def gpio_hw_set_pull (s : gpio_state) (pin : Int) (_pull_str : String) : gpio_state × Int :=
  if gpio_not_ready s pin then (s, -1) else (s, 0)

/-- One call of a GPIO driver function of the stub build. -/
inductive gpio_op where
  | init (pin : Int) (mode_str : String)
  | write (pin level : Int)
  | read (pin : Int)
  | set_pull (pin : Int) (pull_str : String)
deriving DecidableEq

/-- Executes one driver call. -/
def gpio_step (s : gpio_state) : gpio_op → gpio_state × Int
  | .init pin mode_str => gpio_hw_init s pin mode_str
  | .write pin level => gpio_hw_write s pin level
  | .read pin => gpio_hw_read s pin
  | .set_pull pin pull_str => gpio_hw_set_pull s pin pull_str

/-- Executes a sequence of driver calls. -/
def gpio_run (s : gpio_state) : List gpio_op → gpio_state
  | [] => s
  | op :: ops => gpio_run (gpio_step s op).1 ops

/-- Whether some `gpio_hw_init` call for pin `p` in the sequence returned 0. -/
def init_succeeded (p : Int) (s : gpio_state) : List gpio_op → Bool
  | [] => false
  | op :: ops =>
    (match op with
      | .init pin mode_str => decide (pin = p) && decide ((gpio_hw_init s pin mode_str).2 = 0)
      | _ => false) || init_succeeded p (gpio_step s op).1 ops

end Stub

/-! ### Script bindings of the GPIO driver

The bindings are the same code in both builds. `JS_ToInt32` and `JS_ToCString` belong to
the script engine; they are parameters, `none` standing for a failed conversion. The
driver function the binding calls is a parameter too, so that either build can be
plugged in. -/

section bindings
variable {S V : Type}

/-- The binding `js_gpio_init`. -/
def js_gpio_init (JS_ToInt32 : V → Option Int) (JS_ToCString : V → Option String)
    (gpio_hw_init : S → Int → String → S × Int) (s : S) (argv : List V) : S × js_result :=
  match argv with
  | [] => (s, .exception .TypeError)
  | a0 :: rest =>
    match JS_ToInt32 a0 with
    | none => (s, .exception .pending)
    | some pin =>
      let mode : Option String := match rest with
        | [] => some "out"
        | a1 :: _ => JS_ToCString a1
      match mode with
      | none => (s, .exception .pending)
      | some mode =>
        let r := gpio_hw_init s pin mode
        if r.2 < 0 then (r.1, .exception .InternalError) else (r.1, .JS_UNDEFINED)

/-- The binding `js_gpio_write`. -/
def js_gpio_write (JS_ToInt32 : V → Option Int)
    (gpio_hw_write : S → Int → Int → S × Int) (s : S) (argv : List V) : S × js_result :=
  match argv with
  | a0 :: a1 :: _ =>
    match JS_ToInt32 a0 with
    | none => (s, .exception .pending)
    | some pin =>
      match JS_ToInt32 a1 with
      | none => (s, .exception .pending)
      | some level =>
        let r := gpio_hw_write s pin level
        if r.2 < 0 then (r.1, .exception .InternalError) else (r.1, .JS_UNDEFINED)
  | _ => (s, .exception .TypeError)

/-- The binding `js_gpio_read`. -/
def js_gpio_read (JS_ToInt32 : V → Option Int)
    (gpio_hw_read : S → Int → S × Int) (s : S) (argv : List V) : S × js_result :=
  match argv with
  | [] => (s, .exception .TypeError)
  | a0 :: _ =>
    match JS_ToInt32 a0 with
    | none => (s, .exception .pending)
    | some pin =>
      let r := gpio_hw_read s pin
      if r.2 < 0 then (r.1, .exception .InternalError) else (r.1, .int32 r.2)

/-- The binding `js_gpio_setPull`. -/
def js_gpio_setPull (JS_ToInt32 : V → Option Int) (JS_ToCString : V → Option String)
    (gpio_hw_set_pull : S → Int → String → S × Int) (s : S) (argv : List V) :
    S × js_result :=
  match argv with
  | a0 :: a1 :: _ =>
    match JS_ToInt32 a0 with
    | none => (s, .exception .pending)
    | some pin =>
      match JS_ToCString a1 with
      | none => (s, .exception .pending)
      | some pull =>
        let r := gpio_hw_set_pull s pin pull
        if r.2 < 0 then (r.1, .exception .InternalError) else (r.1, .JS_UNDEFINED)
  | _ => (s, .exception .TypeError)

end bindings

/-! ## Observing the phase of the WS2812 encoder

To reason about the phase for every result the two sub-encoders can report, the
encoder is run with sub-encoders that report a prescribed value and leave a record of
each invocation in the channel. -/

/-- What is recorded of a run of the encoder: each invocation of a sub-encoder with
the state it reported, and each call of `ws2812_reset`. -/
inductive encoder_event where
  | bytes_encode (ret_state : Nat)
  | copy_encode (ret_state : Nat)
  | reset
deriving DecidableEq

/-- A byte sub-encoder that reports the state it holds and records the invocation. -/
def probe_bytes_encoder : rmt_encoder_t Nat (List encoder_event) Nat where
  encode := fun answer trace _ =>
    ⟨answer, trace ++ [encoder_event.bytes_encode answer], 0, answer⟩
  reset := fun answer => answer

/-- A copy sub-encoder that reports the state it holds and records the invocation. -/
def probe_copy_encoder : rmt_encoder_t Nat (List encoder_event) rmt_symbol_word_t where
  encode := fun answer trace _ =>
    ⟨answer, trace ++ [encoder_event.copy_encode answer], 0, answer⟩
  reset := fun answer => answer

/-- A call made to the encoder by the driver: `ws2812_encode`, together with what the
byte and the copy sub-encoder report if invoked during it, or `ws2812_reset`. -/
inductive ws2812_call where
  | encode (bytes_ret copy_ret : Nat)
  | reset
deriving DecidableEq

/-- The phase of the encoder and the record of events so far. -/
structure ws2812_probe where
  phase : Nat
  trace : List encoder_event
deriving DecidableEq

/-- The `ws2812_encode` call of the probe: the sub-encoders are loaded with the
reports for this call, the channel carries the record. -/
def ws2812_probe_encode (phase bytes_ret copy_ret : Nat) (trace : List encoder_event) :
    encode_result (ws2812_encoder_t Nat Nat) (List encoder_event) :=
  ws2812_encode probe_bytes_encoder probe_copy_encoder
    { bytes_encoder := bytes_ret, copy_encoder := copy_ret, state := phase,
      reset_code := ws2812_new.reset_code } trace []

/-- Executes one call on the probe. -/
def ws2812_probe_step (p : ws2812_probe) : ws2812_call → ws2812_probe
  | .encode bytes_ret copy_ret =>
    let r := ws2812_probe_encode p.phase bytes_ret copy_ret p.trace
    { phase := r.encoder.state, trace := r.channel }
  | .reset =>
    let ws := ws2812_reset probe_bytes_encoder probe_copy_encoder
      { bytes_encoder := 0, copy_encoder := 0, state := p.phase,
        reset_code := ws2812_new.reset_code }
    { phase := ws.state, trace := p.trace ++ [encoder_event.reset] }

/-- Executes a sequence of calls on the probe. -/
def ws2812_probe_run (p : ws2812_probe) (calls : List ws2812_call) : ws2812_probe :=
  calls.foldl ws2812_probe_step p

/-- Whether a reported state carries `RMT_ENCODING_COMPLETE`. -/
def reports_complete (ret_state : Nat) : Bool := ret_state &&& RMT_ENCODING_COMPLETE != 0

/-- Whether a reported state carries `RMT_ENCODING_MEM_FULL`. -/
def reports_mem_full (ret_state : Nat) : Bool := ret_state &&& RMT_ENCODING_MEM_FULL != 0

/-- One step of the frame monitor. Its state says whether the byte sub-encoder has
reported completion for the current frame; a frame ends when the copy sub-encoder
reports completion or the encoder is reset. `none` records that the copy sub-encoder
was invoked for a frame whose bytes had not been reported complete. -/
def frame_monitor_step : Option Bool → encoder_event → Option Bool
  | none, _ => none
  | some bytes_done, .bytes_encode ret_state => some (bytes_done || reports_complete ret_state)
  | some bytes_done, .copy_encode ret_state =>
    if bytes_done then some (!reports_complete ret_state) else none
  | some _, .reset => some false

/-- Runs the frame monitor over a record, starting at the beginning of a frame. -/
def frame_monitor (trace : List encoder_event) : Option Bool :=
  trace.foldl frame_monitor_step (some false)

/-- Whether an event is a sub-encoder invocation that reported completion. -/
def event_complete : encoder_event → Bool
  | .bytes_encode ret_state => reports_complete ret_state
  | .copy_encode ret_state => reports_complete ret_state
  | .reset => false

/-- Whether a call keeps the contract of the byte sub-encoder: the state it reports
carries at least one of `RMT_ENCODING_COMPLETE` and `RMT_ENCODING_MEM_FULL`. -/
def call_in_contract : ws2812_call → Bool
  | .encode bytes_ret _ => reports_complete bytes_ret || reports_mem_full bytes_ret
  | .reset => true

/-- Whether the byte sub-encoder may report the state that a call prescribes for
it: some encoder object, channel and data make `rmt_encode_bytes` report that state.
A call of `ws2812_reset` prescribes nothing. -/
def call_reportable : ws2812_call → Prop
  | .encode bytes_ret _ =>
    ∃ enc channel data, (rmt_encode_bytes enc channel data).ret_state = bytes_ret
  | .reset => True

/-- What the frame monitor has established between two calls: no violation so far,
the phase is 0 or 1, and in phase 1 the bytes of the frame are complete. -/
def probe_ok (p : ws2812_probe) : Prop :=
  ∃ bytes_done, frame_monitor p.trace = some bytes_done ∧
    (p.phase = 1 → bytes_done = true) ∧ (p.phase = 0 ∨ p.phase = 1)

/-! ## Theorems

### The byte encoder and the transmit loop -/

theorem rmt_bytes_emit_eq (enc : rmt_bytes_encoder_t) (data : List Nat) :
    ∀ (len byte_index bit_index : Nat), bit_index < 8 →
      rmt_bytes_emit enc data len byte_index bit_index =
        ((List.range' (byte_index * 8 + bit_index) len).map (rmt_bytes_symbol_at enc data),
          (byte_index * 8 + bit_index + len) / 8, (byte_index * 8 + bit_index + len) % 8) := by
  intro len
  induction len with
  | zero =>
    intro byte_index bit_index h
    simp only [rmt_bytes_emit, List.range'_zero, List.map_nil, Nat.add_zero]
    have h1 : (byte_index * 8 + bit_index) / 8 = byte_index := by omega
    have h2 : (byte_index * 8 + bit_index) % 8 = bit_index := by omega
    rw [h1, h2]
  | succ len ih =>
    intro byte_index bit_index h
    have h1 : (byte_index * 8 + bit_index) / 8 = byte_index := by omega
    have h2 : (byte_index * 8 + bit_index) % 8 = bit_index := by omega
    simp only [rmt_bytes_emit, List.range'_succ, List.map_cons, rmt_bytes_symbol_at, h1, h2]
    by_cases hb : bit_index + 1 ≥ 8
    · have hb7 : bit_index = 7 := by omega
      subst hb7
      simp only [ge_iff_le, le_refl, if_true]
      rw [ih (byte_index + 1) 0 (by omega)]
      have e1 : (byte_index + 1) * 8 + 0 = byte_index * 8 + 7 + 1 := by omega
      have e2 : byte_index * 8 + 7 + (len + 1) = byte_index * 8 + 7 + 1 + len := by omega
      simp only [e1, e2, rmt_bytes_symbol_at]
    · simp only [hb, if_false]
      rw [ih byte_index (bit_index + 1) (by omega)]
      have e1 : byte_index * 8 + (bit_index + 1) = byte_index * 8 + bit_index + 1 := by omega
      have e2 : byte_index * 8 + bit_index + (len + 1) = byte_index * 8 + bit_index + 1 + len := by
        omega
      simp only [e1, e2, rmt_bytes_symbol_at]

theorem rmt_bytes_symbol_at_cfg (data : List Nat) (byte_index bit_index : Nat) :
    rmt_bytes_symbol_at
      { bytes_cfg with last_byte_index := byte_index, last_bit_index := bit_index } data =
    rmt_bytes_symbol_at bytes_cfg data := by
  funext p
  simp [rmt_bytes_symbol_at, rmt_bytes_symbol]

theorem ws2812_encode_bytes_phase (data : List Nat) (c byte_index bit_index : Nat)
    (hbit : bit_index < 8) :
    ws2812_encode rmt_bytes_encoder rmt_copy_encoder (ws2812_at byte_index bit_index 0)
        { mem := [], mem_have := c } data =
      if c < data.length * 8 - (byte_index * 8 + bit_index) then
        ⟨ws2812_at ((byte_index * 8 + bit_index + c) / 8)
            ((byte_index * 8 + bit_index + c) % 8) 0,
          ⟨(List.range' (byte_index * 8 + bit_index) c).map
            (rmt_bytes_symbol_at bytes_cfg data), 0⟩,
          c, RMT_ENCODING_MEM_FULL⟩
      else if c = data.length * 8 - (byte_index * 8 + bit_index) then
        ⟨ws2812_at 0 0 1,
          ⟨(List.range' (byte_index * 8 + bit_index) c).map
            (rmt_bytes_symbol_at bytes_cfg data), 0⟩,
          c, RMT_ENCODING_MEM_FULL⟩
      else
        ⟨ws2812_at 0 0 0,
          ⟨(List.range' (byte_index * 8 + bit_index)
              (data.length * 8 - (byte_index * 8 + bit_index))).map
                (rmt_bytes_symbol_at bytes_cfg data) ++ [ws2812_new.reset_code],
            c - (data.length * 8 - (byte_index * 8 + bit_index)) - 1⟩,
          data.length * 8 - (byte_index * 8 + bit_index) + 1,
          if c = data.length * 8 - (byte_index * 8 + bit_index) + 1
            then RMT_ENCODING_COMPLETE ||| RMT_ENCODING_MEM_FULL else RMT_ENCODING_COMPLETE⟩ := by
  generalize hw : data.length * 8 - (byte_index * 8 + bit_index) = want
  have hemit := rmt_bytes_emit_eq
    { bytes_cfg with last_byte_index := byte_index, last_bit_index := bit_index } data
  rw [rmt_bytes_symbol_at_cfg] at hemit
  rcases Nat.lt_trichotomy c want with hlt | heq | hgt
  · have hmin : min want c = c := by omega
    simp [ws2812_encode, ws2812_encode_case1, ws2812_at, ws2812_new, rmt_bytes_encoder,
      rmt_encode_bytes, hw, hlt, hmin, hemit _ _ _ hbit, RMT_ENCODING_RESET,
      RMT_ENCODING_COMPLETE, RMT_ENCODING_MEM_FULL, Nat.not_lt.mpr (Nat.le_of_lt hlt)]
  · subst heq
    simp [ws2812_encode, ws2812_encode_case1, ws2812_at, ws2812_new, rmt_bytes_encoder,
      rmt_encode_bytes, hw, hemit _ _ _ hbit, RMT_ENCODING_RESET,
      RMT_ENCODING_COMPLETE, RMT_ENCODING_MEM_FULL]
  · have hmin : min want c = want := by omega
    have h1 : ¬ c < want := by omega
    have h2 : ¬ c = want := by omega
    have h3 : ¬ (c - want < 1) := by omega
    have h4 : min 1 (c - want) = 1 := by omega
    simp only [h1, h2, if_false]
    by_cases h5 : c = want + 1
    · subst h5
      simp [ws2812_encode, ws2812_encode_case1, ws2812_at, ws2812_new, rmt_bytes_encoder,
        rmt_copy_encoder, rmt_encode_copy,
        rmt_encode_bytes, hw, hmin, hemit _ _ _ hbit, RMT_ENCODING_RESET,
        RMT_ENCODING_COMPLETE, RMT_ENCODING_MEM_FULL]
    · have h6 : 1 < c - want := by omega
      simp [ws2812_encode, ws2812_encode_case1, ws2812_at, ws2812_new, rmt_bytes_encoder,
        rmt_copy_encoder, rmt_encode_copy, h1, h3, h4, h5, h6,
        rmt_encode_bytes, hw, hmin, hemit _ _ _ hbit, RMT_ENCODING_RESET,
        RMT_ENCODING_COMPLETE, RMT_ENCODING_MEM_FULL, hgt, Nat.sub_sub]

theorem ws2812_encode_reset_phase (data : List Nat) (c : Nat) :
    ws2812_encode rmt_bytes_encoder rmt_copy_encoder (ws2812_at 0 0 1)
        { mem := [], mem_have := c } data =
      if c = 0 then ⟨ws2812_at 0 0 1, ⟨[], 0⟩, 0, RMT_ENCODING_MEM_FULL⟩
      else ⟨ws2812_at 0 0 0, ⟨[ws2812_new.reset_code], c - 1⟩, 1,
        if c = 1 then RMT_ENCODING_COMPLETE ||| RMT_ENCODING_MEM_FULL
        else RMT_ENCODING_COMPLETE⟩ := by
  rcases Nat.lt_trichotomy c 1 with h0 | h1 | h2
  · have h : c = 0 := by omega
    subst h
    simp [ws2812_encode, ws2812_encode_case1, ws2812_at, ws2812_new, rmt_copy_encoder,
      rmt_encode_copy, RMT_ENCODING_RESET, RMT_ENCODING_COMPLETE, RMT_ENCODING_MEM_FULL]
  · subst h1
    simp [ws2812_encode, ws2812_encode_case1, ws2812_at, ws2812_new, rmt_copy_encoder,
      rmt_encode_copy, RMT_ENCODING_RESET, RMT_ENCODING_COMPLETE, RMT_ENCODING_MEM_FULL]
  · have h3 : ¬ c = 0 := by omega
    have h4 : ¬ c = 1 := by omega
    have h5 : ¬ c < 1 := by omega
    have h6 : min 1 c = 1 := by omega
    simp [ws2812_encode, ws2812_encode_case1, ws2812_at, ws2812_new, rmt_copy_encoder,
      rmt_encode_copy, RMT_ENCODING_RESET, RMT_ENCODING_COMPLETE, RMT_ENCODING_MEM_FULL,
      h2, h3, h4, h5, h6]

/-- From the reset phase the transmit loop emits the reset symbol alone, as soon as a
call offers room for one symbol. -/
theorem rmt_tx_run_reset_phase (data : List Nat) :
    ∀ caps : List Nat, 1 ≤ caps.sum →
      rmt_tx_run (ws2812_at 0 0 1) data caps =
        (ws2812_at 0 0 0, [ws2812_new.reset_code], true) := by
  intro caps
  induction caps with
  | nil => intro h; simp at h
  | cons c caps ih =>
    intro h
    rw [rmt_tx_run, ws2812_encode_reset_phase]
    by_cases hc : c = 0
    · subst hc
      have h1 : 1 ≤ caps.sum := by simpa using h
      simp [ih h1, RMT_ENCODING_MEM_FULL, RMT_ENCODING_COMPLETE]
    · by_cases hc1 : c = 1
      · simp [hc, hc1, RMT_ENCODING_MEM_FULL, RMT_ENCODING_COMPLETE]
      · simp [hc, hc1, RMT_ENCODING_MEM_FULL, RMT_ENCODING_COMPLETE]

/-- From any resume position in the bytes phase the transmit loop emits the remaining
bit symbols and then the reset symbol, once the capacities add up to that many. -/
theorem rmt_tx_run_bytes_phase (data : List Nat) :
    ∀ (caps : List Nat) (p : Nat), p ≤ data.length * 8 →
      data.length * 8 + 1 ≤ p + caps.sum →
      rmt_tx_run (ws2812_at (p / 8) (p % 8) 0) data caps =
        (ws2812_at 0 0 0,
          (List.range' p (data.length * 8 - p)).map (rmt_bytes_symbol_at bytes_cfg data)
            ++ [ws2812_new.reset_code], true) := by
  intro caps
  induction caps with
  | nil => intro p hp h; simp at h; omega
  | cons c caps ih =>
    intro p hp h
    have hdm : p / 8 * 8 + p % 8 = p := by omega
    rw [rmt_tx_run, ws2812_encode_bytes_phase data c (p / 8) (p % 8) (by omega), hdm]
    simp only [List.sum_cons] at h
    rcases Nat.lt_trichotomy c (data.length * 8 - p) with hlt | heq | hgt
    · have ih1 := ih (p + c) (by omega) (by omega)
      have hr := List.range'_append p c (data.length * 8 - (p + c)) 1
      have hlen : data.length * 8 - (p + c) + c = data.length * 8 - p := by omega
      rw [Nat.one_mul, hlen] at hr
      simp only [hlt, if_true, ih1]
      simp only [RMT_ENCODING_MEM_FULL, RMT_ENCODING_COMPLETE]
      rw [← hr, List.map_append, List.append_assoc]
      simp
    · have ih1 := rmt_tx_run_reset_phase data caps (by omega)
      simp [heq, ih1, RMT_ENCODING_MEM_FULL, RMT_ENCODING_COMPLETE]
    · have h1 : ¬ c < data.length * 8 - p := by omega
      have h2 : ¬ c = data.length * 8 - p := by omega
      by_cases h3 : c = data.length * 8 - p + 1
      · simp [h1, h2, h3, RMT_ENCODING_MEM_FULL, RMT_ENCODING_COMPLETE]
      · simp [h1, h2, h3, RMT_ENCODING_MEM_FULL, RMT_ENCODING_COMPLETE]

set_option maxRecDepth 100000 in
theorem ws2812_decode_byte_symbols :
    ∀ x, x < 256 → bits_to_byte ((ws2812_byte_symbols x).map classify_symbol) = x := by
  decide

theorem rmt_bytes_symbol_at_cons (byte : Nat) (rest : List Nat) (q : Nat) :
    rmt_bytes_symbol_at bytes_cfg (byte :: rest) (8 + q) =
      rmt_bytes_symbol_at bytes_cfg rest q := by
  have h1 : (8 + q) / 8 = q / 8 + 1 := by omega
  have h2 : (8 + q) % 8 = q % 8 := by omega
  simp [rmt_bytes_symbol_at, rmt_bytes_symbol, h1, h2]

theorem rmt_bytes_symbol_first (byte : Nat) (rest : List Nat) :
    (List.range' 0 8).map (rmt_bytes_symbol_at bytes_cfg (byte :: rest)) =
      ws2812_byte_symbols byte := by
  simp [List.range', rmt_bytes_symbol_at, rmt_bytes_symbol, bytes_cfg, ws2812_byte_symbols,
    ws2812_bit_symbol, Nat.shiftRight_eq_div_pow, Nat.and_one_is_mod]

/-- The bit stream of the byte encoder, position by position, is the concatenation of
the per-byte symbol groups of the reference frame. -/
theorem rmt_bytes_stream_eq (data : List Nat) :
    (List.range' 0 (data.length * 8)).map (rmt_bytes_symbol_at bytes_cfg data) =
      data.flatMap ws2812_byte_symbols := by
  induction data with
  | nil => simp
  | cons byte rest ih =>
    have hlen : (byte :: rest).length * 8 = rest.length * 8 + 8 := by simp; omega
    have hr := List.range'_append 0 8 (rest.length * 8) 1
    rw [hlen, ← hr, List.map_append, rmt_bytes_symbol_first, List.flatMap_cons, ← ih]
    congr 1
    have hm := List.map_add_range' 8 0 (rest.length * 8) 1
    simp only [Nat.zero_add, Nat.mul_one, Nat.add_zero] at hm ⊢
    rw [← hm, List.map_map]
    apply List.map_congr_left
    intro q _
    simp [rmt_bytes_symbol_at_cons]

/-- Whatever the capacities of the successive buffers, once they add up to the length
of the frame the transmit loop has put exactly the reference frame on the wire and the
encoder object is back in its initial state. -/
theorem rmt_tx_run_frame (data caps : List Nat) (h : data.length * 8 + 1 ≤ caps.sum) :
    rmt_tx_run ws2812_new data caps = (ws2812_new, ws2812_frame data, true) := by
  have h0 := rmt_tx_run_bytes_phase data caps 0 (Nat.zero_le _) (by omega)
  have hnew : ws2812_at 0 0 0 = ws2812_new := rfl
  simp only [Nat.zero_div, Nat.zero_mod, Nat.sub_zero, hnew, rmt_bytes_stream_eq] at h0
  exact h0

/-- C2: for every input buffer and every sequence of output buffer capacities that
leaves room for the whole frame, calling `ws2812_encode` again and again with the
preserved encoder object until it reports completion yields, call outputs
concatenated, the same symbols as one call with a buffer large enough for everything:
all bit symbols of the input in order, then exactly one reset symbol. -/
theorem ws2812_resume_equiv (data caps : List Nat) (h : data.length * 8 + 1 ≤ caps.sum)
    (big : Nat) (hbig : data.length * 8 + 1 ≤ big) :
    (rmt_tx_run ws2812_new data caps).2.2 = true ∧
    (rmt_tx_run ws2812_new data caps).2.1 =
      (ws2812_encode rmt_bytes_encoder rmt_copy_encoder ws2812_new
        { mem := [], mem_have := big } data).channel.mem ∧
    (ws2812_encode rmt_bytes_encoder rmt_copy_encoder ws2812_new
        { mem := [], mem_have := big } data).ret_state &&& RMT_ENCODING_COMPLETE ≠ 0 ∧
    (rmt_tx_run ws2812_new data caps).2.1 = ws2812_frame data ∧
    (rmt_tx_run ws2812_new data caps).1 = ws2812_new := by
  have hrun := rmt_tx_run_frame data caps h
  have hone := rmt_tx_run_frame data [big] (by simpa using hbig)
  rw [rmt_tx_run] at hone
  by_cases hc : (ws2812_encode rmt_bytes_encoder rmt_copy_encoder ws2812_new
        { mem := [], mem_have := big } data).ret_state &&& RMT_ENCODING_COMPLETE ≠ 0
  · rw [if_pos hc] at hone
    have hmem := congrArg (fun t => t.2.1) hone
    simp only at hmem
    rw [hrun]
    exact ⟨rfl, hmem.symm, hc, rfl, rfl⟩
  · rw [if_neg hc] at hone
    simp only [rmt_tx_run] at hone
    have hdone := congrArg (fun t => t.2.2) hone
    simp at hdone

theorem ws2812_resume_equiv_witness :
    (rmt_tx_run ws2812_new [0xA5, 0x01] [3, 0, 5, 8, 1, 7]).2.2 = true ∧
    (rmt_tx_run ws2812_new [0xA5, 0x01] [3, 0, 5, 8, 1, 7]).2.1 =
      (ws2812_encode rmt_bytes_encoder rmt_copy_encoder ws2812_new
        { mem := [], mem_have := 64 } [0xA5, 0x01]).channel.mem ∧
    (ws2812_encode rmt_bytes_encoder rmt_copy_encoder ws2812_new
        { mem := [], mem_have := 64 } [0xA5, 0x01]).ret_state &&& RMT_ENCODING_COMPLETE ≠ 0 ∧
    (rmt_tx_run ws2812_new [0xA5, 0x01] [3, 0, 5, 8, 1, 7]).2.1 = ws2812_frame [0xA5, 0x01] ∧
    (rmt_tx_run ws2812_new [0xA5, 0x01] [3, 0, 5, 8, 1, 7]).1 = ws2812_new :=
  ws2812_resume_equiv [0xA5, 0x01] [3, 0, 5, 8, 1, 7] (by decide) 64 (by decide)

theorem ws2812_bit_symbol_cases (bit : Bool) :
    ws2812_bit_symbol bit = ws2812_bit_symbol false ∨
      ws2812_bit_symbol bit = ws2812_bit_symbol true := by
  cases bit <;> simp

theorem ws2812_frame_grb (r g b : Nat) :
    ws2812_frame (grb r g b) =
      (ws2812_byte_symbols g ++ ws2812_byte_symbols r ++ ws2812_byte_symbols b) ++
        [ws2812_new.reset_code] := by
  simp [ws2812_frame, grb]

theorem ws2812_grb_bits_length (r g b : Nat) :
    (ws2812_byte_symbols g ++ ws2812_byte_symbols r ++ ws2812_byte_symbols b).length = 24 := by
  simp [ws2812_byte_symbols]

theorem ws2812_decode_grb (r g b : Nat) (hr : r < 256) (hg : g < 256) (hb : b < 256) :
    ws2812_decode (ws2812_byte_symbols g ++ ws2812_byte_symbols r ++ ws2812_byte_symbols b) =
      [g, r, b] := by
  have dg := ws2812_decode_byte_symbols g hg
  have dr := ws2812_decode_byte_symbols r hr
  have db := ws2812_decode_byte_symbols b hb
  simp only [ws2812_byte_symbols, List.map_cons, List.map_nil] at dg dr db
  simp only [ws2812_byte_symbols, List.map_cons, List.map_nil, List.cons_append,
    List.nil_append, List.append_assoc, ws2812_decode, bits_to_bytes, dg, dr, db]

/-- C1: for every colour with components in 0..255 the symbol stream put on the wire
for the buffer of `led_hw_set` (bytes g, r, b) is 24 bit symbols followed by the one
reset symbol, and classifying the bit symbols by pulse width and regrouping them
most significant bit first gives back (g, r, b). -/
theorem ws2812_round_trip (r g b : Nat) (hr : r < 256) (hg : g < 256) (hb : b < 256)
    (caps : List Nat) (hcaps : 25 ≤ caps.sum) :
    bytes_cfg.msb_first = true ∧
    bytes_cfg.bit0 = { level0 := 1, duration0 := 4, level1 := 0, duration1 := 9 } ∧
    bytes_cfg.bit1 = { level0 := 1, duration0 := 8, level1 := 0, duration1 := 5 } ∧
    (rmt_tx_run ws2812_new (grb r g b) caps).2.2 = true ∧
    (rmt_tx_run ws2812_new (grb r g b) caps).2.1.length = 25 ∧
    (∀ s ∈ (rmt_tx_run ws2812_new (grb r g b) caps).2.1.take 24,
      s = bytes_cfg.bit0 ∨ s = bytes_cfg.bit1) ∧
    (rmt_tx_run ws2812_new (grb r g b) caps).2.1.drop 24 = [ws2812_new.reset_code] ∧
    ws2812_decode ((rmt_tx_run ws2812_new (grb r g b) caps).2.1.take 24) = [g, r, b] := by
  rw [rmt_tx_run_frame (grb r g b) caps (by simpa [grb] using hcaps), ws2812_frame_grb]
  have hlen := ws2812_grb_bits_length r g b
  refine ⟨rfl, rfl, rfl, rfl, ?_, ?_, ?_, ?_⟩
  · rw [List.length_append, hlen]
    rfl
  · intro s hs
    rw [List.take_left' hlen] at hs
    simp only [List.mem_append, ws2812_byte_symbols, List.mem_map] at hs
    rcases hs with (⟨i, _, h⟩ | ⟨i, _, h⟩) | ⟨i, _, h⟩ <;> rw [← h] <;>
      exact ws2812_bit_symbol_cases _
  · rw [List.drop_left' hlen]
  · rw [List.take_left' hlen]
    exact ws2812_decode_grb r g b hr hg hb

theorem ws2812_round_trip_witness :
    ((rmt_tx_run ws2812_new (grb 0 0 0) [64]).2.2 = true ∧
      ws2812_decode ((rmt_tx_run ws2812_new (grb 0 0 0) [64]).2.1.take 24) = [0, 0, 0]) ∧
    ((rmt_tx_run ws2812_new (grb 255 255 255) [64]).2.2 = true ∧
      ws2812_decode ((rmt_tx_run ws2812_new (grb 255 255 255) [64]).2.1.take 24) =
        [255, 255, 255]) ∧
    ((rmt_tx_run ws2812_new (grb 1 2 3) [10, 10, 10]).2.2 = true ∧
      ws2812_decode ((rmt_tx_run ws2812_new (grb 1 2 3) [10, 10, 10]).2.1.take 24) =
        [2, 1, 3]) :=
  have h0 := ws2812_round_trip 0 0 0 (by decide) (by decide) (by decide) [64] (by decide)
  have h1 := ws2812_round_trip 255 255 255 (by decide) (by decide) (by decide) [64] (by decide)
  have h2 := ws2812_round_trip 1 2 3 (by decide) (by decide) (by decide) [10, 10, 10] (by decide)
  ⟨⟨h0.2.2.2.1, h0.2.2.2.2.2.2.2⟩, ⟨h1.2.2.2.1, h1.2.2.2.2.2.2.2⟩,
    ⟨h2.2.2.2.1, h2.2.2.2.2.2.2.2⟩⟩

/-! ### The reset symbol -/

/-- C3: the reset symbol that a successful `led_hw_init` installs has both levels 0
and lasts 280 + 280 ticks, which at 100 ns per tick is 56 000 ns, short of the
280 000 ns that the claim and the source comment ask for. -/
theorem led_reset_code_is_56us :
    NS_PER_TICK = 100 ∧
    (led_hw_init led_boot 38 ⟨ESP_OK, 1, true, ESP_OK, ESP_OK, ESP_OK⟩).2 = 0 ∧
    (led_hw_init led_boot 38 ⟨ESP_OK, 1, true, ESP_OK, ESP_OK, ESP_OK⟩).1.led_rmt_encoder.map
      (fun ws => (ws.reset_code.level0, ws.reset_code.level1,
        (ws.reset_code.duration0 + ws.reset_code.duration1) * NS_PER_TICK)) =
      some (0, 0, 56000) ∧
    ¬ (280000 ≤ (ws2812_new.reset_code.duration0 + ws2812_new.reset_code.duration1)
        * NS_PER_TICK) := by
  decide

/-! ### The phase of the encoder -/

theorem ws2812_probe_encode_phase0 (rb rc : Nat) (trace : List encoder_event) :
    ws2812_probe_encode 0 rb rc trace =
      if reports_mem_full rb then
        ⟨⟨rb, rc, if reports_complete rb then 1 else 0, ws2812_new.reset_code⟩,
          trace ++ [encoder_event.bytes_encode rb], 0, RMT_ENCODING_MEM_FULL⟩
      else
        ⟨⟨rb, rc, if reports_complete rc then 0 else if reports_complete rb then 1 else 0,
            ws2812_new.reset_code⟩,
          trace ++ [encoder_event.bytes_encode rb, encoder_event.copy_encode rc], 0,
          (if reports_complete rc then RMT_ENCODING_COMPLETE else 0) |||
            (if reports_mem_full rc then RMT_ENCODING_MEM_FULL else 0)⟩ := by
  simp only [ws2812_probe_encode, ws2812_encode, ws2812_encode_case1, probe_bytes_encoder,
    probe_copy_encoder, reports_mem_full, reports_complete, RMT_ENCODING_RESET]
  by_cases h1 : rb &&& RMT_ENCODING_MEM_FULL = 0 <;>
    by_cases h2 : rb &&& RMT_ENCODING_COMPLETE = 0 <;>
    by_cases h3 : rc &&& RMT_ENCODING_COMPLETE = 0 <;>
    by_cases h4 : rc &&& RMT_ENCODING_MEM_FULL = 0 <;>
    simp [h1, h2, h3, h4]

theorem ws2812_probe_encode_phase1 (rb rc : Nat) (trace : List encoder_event) :
    ws2812_probe_encode 1 rb rc trace =
      ⟨⟨rb, rc, if reports_complete rc then 0 else 1, ws2812_new.reset_code⟩,
        trace ++ [encoder_event.copy_encode rc], 0,
        (if reports_complete rc then RMT_ENCODING_COMPLETE else 0) |||
          (if reports_mem_full rc then RMT_ENCODING_MEM_FULL else 0)⟩ := by
  simp only [ws2812_probe_encode, ws2812_encode, ws2812_encode_case1, probe_bytes_encoder,
    probe_copy_encoder, reports_mem_full, reports_complete, RMT_ENCODING_RESET]
  by_cases h3 : rc &&& RMT_ENCODING_COMPLETE = 0 <;>
    by_cases h4 : rc &&& RMT_ENCODING_MEM_FULL = 0 <;>
    simp [h3, h4]

theorem reports_complete_or (c m : Bool) :
    reports_complete ((if c then RMT_ENCODING_COMPLETE else 0) |||
      (if m then RMT_ENCODING_MEM_FULL else 0)) = c := by
  cases c <;> cases m <;> decide

theorem frame_monitor_append (trace events : List encoder_event) :
    frame_monitor (trace ++ events) = events.foldl frame_monitor_step (frame_monitor trace) := by
  simp [frame_monitor, List.foldl_append]

theorem probe_ok_step (p : ws2812_probe) (call : ws2812_call) (hp : probe_ok p)
    (hc : call_in_contract call = true) :
    probe_ok (ws2812_probe_step p call) := by
  obtain ⟨d, hmon, hd, hph⟩ := hp
  cases call with
  | reset =>
    refine ⟨false, ?_, ?_, ?_⟩
    · simp [ws2812_probe_step, frame_monitor_append, hmon, frame_monitor_step]
    · simp [ws2812_probe_step, ws2812_reset]
    · simp [ws2812_probe_step, ws2812_reset]
  | encode rb rc =>
    have hrb : reports_complete rb = true ∨ reports_mem_full rb = true := by
      simpa [call_in_contract] using hc
    rcases hph with h0 | h1
    · simp only [ws2812_probe_step, h0, ws2812_probe_encode_phase0]
      by_cases hm : reports_mem_full rb = true
      · refine ⟨d || reports_complete rb, ?_, ?_, ?_⟩
        · simp [hm, frame_monitor_append, hmon, frame_monitor_step]
        · cases hcb : reports_complete rb <;> simp [hm, hcb]
        · cases hcb : reports_complete rb <;> simp [hm, hcb]
      · have hcb : reports_complete rb = true := by
          rcases hrb with h | h
          · exact h
          · exact absurd h hm
        refine ⟨!reports_complete rc, ?_, ?_, ?_⟩
        · simp [hm, hcb, frame_monitor_append, hmon, frame_monitor_step]
        · cases hcc : reports_complete rc <;> simp [hm, hcb, hcc]
        · cases hcc : reports_complete rc <;> simp [hm, hcb, hcc]
    · have hdt := hd h1
      subst hdt
      simp only [ws2812_probe_step, h1, ws2812_probe_encode_phase1]
      refine ⟨!reports_complete rc, ?_, ?_, ?_⟩
      · simp [frame_monitor_append, hmon, frame_monitor_step]
      · cases hcc : reports_complete rc <;> simp [hcc]
      · cases hcc : reports_complete rc <;> simp [hcc]

theorem probe_ok_run (calls : List ws2812_call) :
    ∀ p : ws2812_probe, probe_ok p →
      (∀ call ∈ calls, call_in_contract call = true) →
      probe_ok (ws2812_probe_run p calls) := by
  induction calls with
  | nil => intro p hp _; simpa [ws2812_probe_run] using hp
  | cons call calls ih =>
    intro p hp hc
    have hstep := probe_ok_step p call hp (hc call (by simp))
    have := ih (ws2812_probe_step p call) hstep (fun c h => hc c (by simp [h]))
    simpa [ws2812_probe_run] using this

theorem probe_ok_boot : probe_ok { phase := 0, trace := [] } :=
  ⟨false, rfl, by simp, Or.inl rfl⟩

/-- The byte encoder reports completion or a full buffer (or both) at every call:
it either had room for all remaining symbols or ran out of room. -/
theorem rmt_encode_bytes_reports (enc : rmt_bytes_encoder_t) (channel : rmt_channel)
    (data : List Nat) :
    reports_complete (rmt_encode_bytes enc channel data).ret_state = true ∨
      reports_mem_full (rmt_encode_bytes enc channel data).ret_state = true := by
  have e1 : reports_mem_full (RMT_ENCODING_RESET ||| RMT_ENCODING_MEM_FULL) = true := by decide
  have e2 : reports_complete RMT_ENCODING_COMPLETE = true := by decide
  have e3 : reports_complete (RMT_ENCODING_COMPLETE ||| RMT_ENCODING_MEM_FULL) = true := by
    decide
  simp only [rmt_encode_bytes]
  by_cases h1 : channel.mem_have < data.length * 8 -
      (enc.last_byte_index * 8 + enc.last_bit_index)
  · have h2 : ¬ channel.mem_have > data.length * 8 -
        (enc.last_byte_index * 8 + enc.last_bit_index) := by omega
    simp [h1, h2, e1]
  · by_cases h2 : channel.mem_have > data.length * 8 -
        (enc.last_byte_index * 8 + enc.last_bit_index)
    · simp [h1, h2, e2]
    · simp [h1, h2, e3]

theorem call_reportable_in_contract (call : ws2812_call) (h : call_reportable call) :
    call_in_contract call = true := by
  cases call with
  | reset => rfl
  | encode rb rc =>
    obtain ⟨enc, channel, data, hret⟩ := h
    have hrep := rmt_encode_bytes_reports enc channel data
    rw [hret] at hrep
    simpa [call_in_contract] using hrep

theorem probe_phase_step (p : ws2812_probe) (call : ws2812_call)
    (hp : p.phase = 0 ∨ p.phase = 1) :
    (ws2812_probe_step p call).phase = 0 ∨ (ws2812_probe_step p call).phase = 1 := by
  cases call with
  | reset => left; simp [ws2812_probe_step, ws2812_reset]
  | encode rb rc =>
    rcases hp with h0 | h1
    · simp only [ws2812_probe_step, h0, ws2812_probe_encode_phase0]
      cases reports_mem_full rb <;> cases reports_complete rb <;>
        cases reports_complete rc <;> simp
    · simp only [ws2812_probe_step, h1, ws2812_probe_encode_phase1]
      cases reports_complete rc <;> simp

theorem probe_phase_run (calls : List ws2812_call) :
    ∀ p : ws2812_probe, (p.phase = 0 ∨ p.phase = 1) →
      ((ws2812_probe_run p calls).phase = 0 ∨ (ws2812_probe_run p calls).phase = 1) := by
  induction calls with
  | nil => intro p hp; simpa [ws2812_probe_run] using hp
  | cons call calls ih =>
    intro p hp
    have := ih (ws2812_probe_step p call) (probe_phase_step p call hp)
    simpa [ws2812_probe_run] using this

/-- C10: start the encoder in phase 0 and let it receive any sequence of
`ws2812_encode` and `ws2812_reset` calls, the sub-encoders reporting any state at all.
Then the phase is 0 or 1, `ws2812_reset` sets it to 0, and in the next `ws2812_encode`
call, whatever the sub-encoders report in it: the phase goes from 0 to 1 only if the
byte sub-encoder was invoked and reported completion, from 1 to 0 only if the copy
sub-encoder was invoked and reported completion, it stays as it was when no invoked
sub-encoder reported completion (so a bare buffer-full report never changes it), and
the call reports completion exactly when the copy sub-encoder was invoked and reported
completion, the phase then being 0. When moreover every state prescribed for the byte
sub-encoder is one that it may report, the copy sub-encoder has never been invoked
for a frame whose bytes had not been reported complete. -/
theorem ws2812_phase_invariant (calls : List ws2812_call) :
    ((ws2812_probe_run { phase := 0, trace := [] } calls).phase = 0 ∨
      (ws2812_probe_run { phase := 0, trace := [] } calls).phase = 1) ∧
    (ws2812_probe_step (ws2812_probe_run { phase := 0, trace := [] } calls)
      ws2812_call.reset).phase = 0 ∧
    (∀ (rb rc : Nat) (phase : Nat)
        (r : encode_result (ws2812_encoder_t Nat Nat) (List encoder_event)),
      phase = (ws2812_probe_run { phase := 0, trace := [] } calls).phase →
      r = ws2812_probe_encode phase rb rc [] →
      (phase = 0 → r.encoder.state = 1 →
        encoder_event.bytes_encode rb ∈ r.channel ∧ reports_complete rb = true) ∧
      (phase = 1 → r.encoder.state = 0 →
        encoder_event.copy_encode rc ∈ r.channel ∧ reports_complete rc = true) ∧
      (phase = 1 → encoder_event.bytes_encode rb ∉ r.channel) ∧
      ((∀ e ∈ r.channel, event_complete e = false) → r.encoder.state = phase) ∧
      (reports_complete r.ret_state = true ↔
        (encoder_event.copy_encode rc ∈ r.channel ∧ reports_complete rc = true)) ∧
      (reports_complete r.ret_state = true → r.encoder.state = 0)) ∧
    ((∀ call ∈ calls, call_reportable call) →
      frame_monitor (ws2812_probe_run { phase := 0, trace := [] } calls).trace ≠ none) := by
  have hph := probe_phase_run calls { phase := 0, trace := [] } (Or.inl rfl)
  refine ⟨hph, by simp [ws2812_probe_step, ws2812_reset], ?_, ?_⟩
  · intro rb rc phase r hphase hr
    have e1 : reports_complete RMT_ENCODING_MEM_FULL = false := by decide
    have e2 : reports_complete RMT_ENCODING_COMPLETE = true := by decide
    have e3 : reports_complete (RMT_ENCODING_COMPLETE ||| RMT_ENCODING_MEM_FULL) = true := by
      decide
    have e4 : reports_complete 0 = false := by decide
    rw [← hphase] at hph
    rcases hph with h0 | h1
    · subst h0
      rw [ws2812_probe_encode_phase0] at hr
      subst hr
      cases hm : reports_mem_full rb <;> cases hcb : reports_complete rb <;>
        cases hcc : reports_complete rc <;> cases hmc : reports_mem_full rc <;>
        simp [hcb, hcc, event_complete, e1, e2, e3, e4]
    · subst h1
      rw [ws2812_probe_encode_phase1] at hr
      subst hr
      cases hcc : reports_complete rc <;> cases hmc : reports_mem_full rc <;>
        simp [hcc, event_complete, e1, e2, e3, e4]
  · intro hrep
    have hok := probe_ok_run calls _ probe_ok_boot
      (fun call hc => call_reportable_in_contract call (hrep call hc))
    obtain ⟨d, hmon, _, _⟩ := hok
    rw [hmon]
    simp

theorem ws2812_phase_invariant_witness :
    (∀ call ∈ [ws2812_call.encode 2 0, ws2812_call.encode 3 0, ws2812_call.encode 1 2,
        ws2812_call.reset, ws2812_call.encode 1 1], call_reportable call) ∧
    frame_monitor (ws2812_probe_run { phase := 0, trace := [] }
      [ws2812_call.encode 2 0, ws2812_call.encode 3 0, ws2812_call.encode 1 2,
        ws2812_call.reset, ws2812_call.encode 1 1]).trace ≠ none :=
  have hrep : ∀ call ∈ [ws2812_call.encode 2 0, ws2812_call.encode 3 0,
      ws2812_call.encode 1 2, ws2812_call.reset, ws2812_call.encode 1 1],
      call_reportable call := by
    intro call hc
    simp only [List.mem_cons, List.mem_nil_iff, or_false] at hc
    rcases hc with rfl | rfl | rfl | rfl | rfl
    · exact ⟨bytes_cfg, { mem := [], mem_have := 0 }, [0], by decide⟩
    · exact ⟨bytes_cfg, { mem := [], mem_have := 0 }, [], by decide⟩
    · exact ⟨bytes_cfg, { mem := [], mem_have := 1 }, [], by decide⟩
    · exact True.intro
    · exact ⟨bytes_cfg, { mem := [], mem_have := 1 }, [], by decide⟩
  ⟨hrep, (ws2812_phase_invariant
    [ws2812_call.encode 2 0, ws2812_call.encode 3 0, ws2812_call.encode 1 2,
      ws2812_call.reset, ws2812_call.encode 1 1]).2.2.2 hrep⟩

/-! ### The LED channel manager -/

theorem to_uint8_clamp255 (x : Int) :
    to_uint8 (clamp255 x) = (if x < 0 then 0 else if x > 255 then 255 else x).toNat := by
  unfold to_uint8 clamp255
  split_ifs <;> omega

theorem transmitted_append (a b : List rmt_call) :
    transmitted (a ++ b) = transmitted a ++ transmitted b := by
  induction a with
  | nil => simp [transmitted]
  | cons c a ih => cases c <;> simp [transmitted, ih]

/-- The whole effect of `js_led_rgb`: the clamped arguments are saved, then handed to
`led_hw_set`, and undefined is returned. -/
theorem js_led_rgb_eq (s : led_state) (argv : List Int) :
    js_led_rgb s argv =
      (led_hw_set
        { s with
          led_saved_r := to_uint8 (clamp255 (argv.getD 0 255))
          led_saved_g := to_uint8 (clamp255 (argv.getD 1 255))
          led_saved_b := to_uint8 (clamp255 (argv.getD 2 255)) }
        (to_uint8 (clamp255 (argv.getD 0 255))) (to_uint8 (clamp255 (argv.getD 1 255)))
        (to_uint8 (clamp255 (argv.getD 2 255))), js_result.JS_UNDEFINED) := by
  have e0 : (if argv.length ≥ 1 then argv.getD 0 255 else 255) = argv.getD 0 255 := by
    split_ifs with h
    · rfl
    · rw [List.getD_eq_default]; omega
  have e1 : (if argv.length ≥ 2 then argv.getD 1 255 else 255) = argv.getD 1 255 := by
    split_ifs with h
    · rfl
    · rw [List.getD_eq_default]; omega
  have e2 : (if argv.length ≥ 3 then argv.getD 2 255 else 255) = argv.getD 2 255 := by
    split_ifs with h
    · rfl
    · rw [List.getD_eq_default]; omega
  simp only [js_led_rgb, e0, e1, e2]

/-- C4: for every argument list of `led.rgb`, bound channel or not, the saved colour
afterwards is the clamped triple (a missing argument counting as 255), the call
returns undefined, nothing else of the state changes, and on a bound channel exactly
one frame is submitted, carrying the clamped colour in g, r, b order. -/
theorem js_led_rgb_clamps (s : led_state) (argv : List Int) :
    (js_led_rgb s argv).2 = js_result.JS_UNDEFINED ∧
    (js_led_rgb s argv).1.led_saved_r =
      (if argv.getD 0 255 < 0 then 0 else if argv.getD 0 255 > 255 then 255
        else argv.getD 0 255).toNat ∧
    (js_led_rgb s argv).1.led_saved_g =
      (if argv.getD 1 255 < 0 then 0 else if argv.getD 1 255 > 255 then 255
        else argv.getD 1 255).toNat ∧
    (js_led_rgb s argv).1.led_saved_b =
      (if argv.getD 2 255 < 0 then 0 else if argv.getD 2 255 > 255 then 255
        else argv.getD 2 255).toNat ∧
    (js_led_rgb s argv).1.led_rmt_chan = s.led_rmt_chan ∧
    (js_led_rgb s argv).1.led_rmt_encoder = s.led_rmt_encoder ∧
    (js_led_rgb s argv).1.led_gpio_pin = s.led_gpio_pin ∧
    (s.led_rmt_chan = none → (js_led_rgb s argv).1.calls = s.calls) ∧
    (∀ chan, s.led_rmt_chan = some chan →
      (js_led_rgb s argv).1.calls = s.calls ++
        [rmt_call.rmt_transmit chan s.led_rmt_encoder
          (grb (js_led_rgb s argv).1.led_saved_r (js_led_rgb s argv).1.led_saved_g
            (js_led_rgb s argv).1.led_saved_b),
         rmt_call.rmt_tx_wait_all_done chan]) := by
  simp only [js_led_rgb_eq, to_uint8_clamp255, led_hw_set]
  cases hch : s.led_rmt_chan <;> simp

theorem led_off_times_fields (n : Nat) :
    ∀ s : led_state,
      (led_off_times n s).led_saved_r = s.led_saved_r ∧
      (led_off_times n s).led_saved_g = s.led_saved_g ∧
      (led_off_times n s).led_saved_b = s.led_saved_b ∧
      (led_off_times n s).led_rmt_chan = s.led_rmt_chan ∧
      (led_off_times n s).led_rmt_encoder = s.led_rmt_encoder := by
  induction n with
  | zero => intro s; simp [led_off_times]
  | succ n ih =>
    intro s
    have h := ih (js_led_off s).1
    simp only [led_off_times]
    refine ⟨h.1.trans ?_, h.2.1.trans ?_, h.2.2.1.trans ?_, h.2.2.2.1.trans ?_,
      h.2.2.2.2.trans ?_⟩ <;>
      (simp only [js_led_off, led_hw_set]; cases hch : s.led_rmt_chan <;> simp [hch])

theorem led_off_times_transmitted (n : Nat) :
    ∀ (s : led_state) (chan : Nat), s.led_rmt_chan = some chan →
      transmitted (led_off_times n s).calls =
        transmitted s.calls ++ List.replicate n [0, 0, 0] := by
  induction n with
  | zero => intro s chan _; simp [led_off_times]
  | succ n ih =>
    intro s chan h
    have hchan : (js_led_off s).1.led_rmt_chan = some chan := by
      simp [js_led_off, led_hw_set, h]
    rw [led_off_times, ih (js_led_off s).1 chan hchan]
    simp [js_led_off, led_hw_set, h, transmitted_append, transmitted, grb, List.replicate_succ]

/-- C5: on a bound channel, after `led.rgb` with any arguments and any number of
`led.off()` calls (each of which submits (0,0,0) and leaves the saved colour alone),
the next `led.on()` submits exactly the clamped colour that `led.rgb` stored. -/
theorem led_off_on_restores (s : led_state) (chan : Nat) (hbound : s.led_rmt_chan = some chan)
    (argv : List Int) (n : Nat) :
    (js_led_off (js_led_rgb s argv).1).1.led_saved_r = (js_led_rgb s argv).1.led_saved_r ∧
    (js_led_off (js_led_rgb s argv).1).1.led_saved_g = (js_led_rgb s argv).1.led_saved_g ∧
    (js_led_off (js_led_rgb s argv).1).1.led_saved_b = (js_led_rgb s argv).1.led_saved_b ∧
    transmitted (js_led_off (js_led_rgb s argv).1).1.calls =
      transmitted (js_led_rgb s argv).1.calls ++ [[0, 0, 0]] ∧
    transmitted (led_off_times n (js_led_rgb s argv).1).calls =
      transmitted (js_led_rgb s argv).1.calls ++ List.replicate n [0, 0, 0] ∧
    transmitted (js_led_on (led_off_times n (js_led_rgb s argv).1)).1.calls =
      transmitted (led_off_times n (js_led_rgb s argv).1).calls ++
        [grb (if argv.getD 0 255 < 0 then 0 else if argv.getD 0 255 > 255 then 255
              else argv.getD 0 255).toNat
            (if argv.getD 1 255 < 0 then 0 else if argv.getD 1 255 > 255 then 255
              else argv.getD 1 255).toNat
            (if argv.getD 2 255 < 0 then 0 else if argv.getD 2 255 > 255 then 255
              else argv.getD 2 255).toNat] := by
  have hr : (js_led_rgb s argv).1.led_saved_r =
      (if argv.getD 0 255 < 0 then 0 else if argv.getD 0 255 > 255 then 255
        else argv.getD 0 255).toNat := by
    simp [js_led_rgb_eq, to_uint8_clamp255, led_hw_set, hbound]
  have hg : (js_led_rgb s argv).1.led_saved_g =
      (if argv.getD 1 255 < 0 then 0 else if argv.getD 1 255 > 255 then 255
        else argv.getD 1 255).toNat := by
    simp [js_led_rgb_eq, to_uint8_clamp255, led_hw_set, hbound]
  have hb : (js_led_rgb s argv).1.led_saved_b =
      (if argv.getD 2 255 < 0 then 0 else if argv.getD 2 255 > 255 then 255
        else argv.getD 2 255).toNat := by
    simp [js_led_rgb_eq, to_uint8_clamp255, led_hw_set, hbound]
  have hbound1 : (js_led_rgb s argv).1.led_rmt_chan = some chan := by
    simp [js_led_rgb_eq, led_hw_set, hbound]
  have hf := led_off_times_fields n (js_led_rgb s argv).1
  have ht := led_off_times_transmitted n (js_led_rgb s argv).1 chan hbound1
  have hbound2 : (led_off_times n (js_led_rgb s argv).1).led_rmt_chan = some chan := by
    rw [hf.2.2.2.1, hbound1]
  refine ⟨?_, ?_, ?_, ?_, ht, ?_⟩
  · simp [js_led_off, led_hw_set, hbound1]
  · simp [js_led_off, led_hw_set, hbound1]
  · simp [js_led_off, led_hw_set, hbound1]
  · simp [js_led_off, led_hw_set, hbound1, transmitted_append, transmitted, grb]
  · simp only [js_led_on, led_hw_set, hbound2, transmitted_append, transmitted,
      hf.1, hf.2.1, hf.2.2.1, hr, hg, hb]

theorem led_off_on_restores_witness :
    transmitted
      (js_led_on (led_off_times 2 (js_led_rgb
        { led_boot with led_rmt_chan := some 7, led_rmt_encoder := some ws2812_new }
        [300, -5, 17]).1)).1.calls =
      [[0, 255, 17], [0, 0, 0], [0, 0, 0], [0, 255, 17]] := by
  have h := led_off_on_restores
    { led_boot with led_rmt_chan := some 7, led_rmt_encoder := some ws2812_new } 7 rfl
    [300, -5, 17] 2
  rw [h.2.2.2.2.2, h.2.2.2.2.1]
  decide

/-- C6: after `led_hw_init`, for every prior state and every outcome of the five
driver and allocator steps, the channel handle and the encoder handle are both bound
or both unbound; the function returns 0 or -1; both are bound exactly when it returns
0, and both are unbound when it returns -1. -/
theorem led_hw_init_binding (s : led_state) (gpio_pin : Int) (o : led_init_outcome) :
    ((led_hw_init s gpio_pin o).1.led_rmt_chan.isSome =
      (led_hw_init s gpio_pin o).1.led_rmt_encoder.isSome) ∧
    ((led_hw_init s gpio_pin o).2 = 0 ∨ (led_hw_init s gpio_pin o).2 = -1) ∧
    ((led_hw_init s gpio_pin o).2 = 0 ↔
      ((led_hw_init s gpio_pin o).1.led_rmt_chan.isSome = true ∧
        (led_hw_init s gpio_pin o).1.led_rmt_encoder.isSome = true)) ∧
    ((led_hw_init s gpio_pin o).2 = -1 →
      (led_hw_init s gpio_pin o).1.led_rmt_chan = none ∧
        (led_hw_init s gpio_pin o).1.led_rmt_encoder = none) := by
  unfold led_hw_init
  cases hc : s.led_rmt_chan <;> cases he : s.led_rmt_encoder <;>
    by_cases h1 : o.new_tx_channel_ret = ESP_OK <;>
    cases h2 : o.calloc_ok <;>
    by_cases h3 : o.new_bytes_encoder_ret = ESP_OK <;>
    by_cases h4 : o.new_copy_encoder_ret = ESP_OK <;>
    by_cases h5 : o.enable_ret = ESP_OK <;>
    simp [hc, he, h1, h2, h3, h4, h5]

/-! ### The GPIO driver -/

namespace Esp

theorem esp_gpio_not_ready_set (s : gpio_state) (p q : Int) (calls : List gpio_call)
    (hq : ¬ (q < 0 ∨ q ≥ MAX_GPIO_PINS)) (hne : q ≠ p) (h : gpio_not_ready s p = true) :
    gpio_not_ready
      { gpio_initialized := s.gpio_initialized.set q.toNat 1, calls := calls } p = true := by
  simp only [gpio_not_ready, MAX_GPIO_PINS, Bool.or_eq_true, decide_eq_true_eq, beq_iff_eq] at h ⊢
  rcases h with (h | h) | h
  · exact Or.inl (Or.inl h)
  · exact Or.inl (Or.inr h)
  · by_cases hp : p < 0
    · exact Or.inl (Or.inl hp)
    · right
      have hidx : q.toNat ≠ p.toNat := by
        simp only [MAX_GPIO_PINS] at hq
        omega
      rw [List.getD_eq_getElem?_getD, List.getElem?_set_ne hidx, ← List.getD_eq_getElem?_getD]
      exact h

theorem esp_gpio_not_ready_step (s : gpio_state) (p : Int) (op : gpio_op)
    (h : gpio_not_ready s p = true) (hnone : init_succeeded p s [op] = false) :
    gpio_not_ready (gpio_step s op).1 p = true := by
  cases op with
  | init pin mode_str config_ret =>
    simp only [init_succeeded, Bool.or_false, Bool.and_eq_false_iff, decide_eq_false_iff_not]
      at hnone
    simp only [gpio_step]
    unfold gpio_hw_init at hnone ⊢
    by_cases hr : pin < 0 ∨ pin ≥ MAX_GPIO_PINS
    · simpa [hr] using h
    · simp only [hr, if_false] at hnone ⊢
      by_cases m1 : mode_str = "out" <;> by_cases m2 : mode_str = "in" <;>
        by_cases m3 : mode_str = "in_pullup" <;> by_cases m4 : mode_str = "in_pulldown" <;>
        by_cases hc : config_ret = ESP_OK <;>
        simp only [m1, m2, m3, m4, hc, if_true, if_false, ne_eq, not_true_eq_false,
          not_false_eq_true] at hnone ⊢ <;>
        first
          | exact h
          | (apply esp_gpio_not_ready_set s p pin _ hr _ h
             rcases hnone with hne | hne
             · exact hne
             · first | exact hne.elim | exact absurd rfl hne)
  | write pin level set_level_ret =>
    simp only [gpio_step, gpio_hw_write]
    split_ifs <;> exact h
  | read pin pad_level =>
    simp only [gpio_step, gpio_hw_read]
    split_ifs <;> exact h
  | set_pull pin pull_str =>
    simp only [gpio_step, gpio_hw_set_pull]
    split_ifs <;> exact h

theorem esp_gpio_not_ready_run (p : Int) (ops : List gpio_op) :
    ∀ s : gpio_state, gpio_not_ready s p = true → init_succeeded p s ops = false →
      gpio_not_ready (gpio_run s ops) p = true := by
  induction ops with
  | nil => intro s h _; simpa [gpio_run] using h
  | cons op ops ih =>
    intro s h hnone
    simp only [init_succeeded, Bool.or_eq_false_iff] at hnone
    have hstep := esp_gpio_not_ready_step s p op h (by simpa [init_succeeded] using hnone.1)
    exact ih _ hstep hnone.2

theorem esp_gpio_boot_not_ready (p : Int) : gpio_not_ready gpio_boot p = true := by
  simp only [gpio_not_ready, gpio_boot, MAX_GPIO_PINS, Bool.or_eq_true, decide_eq_true_eq,
    beq_iff_eq]
  by_cases h : p.toNat < 64
  · right
    rw [List.getD_eq_getElem?_getD, List.getElem?_replicate]
    simp [h]
  · right
    rw [List.getD_eq_default]
    simp; omega

end Esp

namespace Stub

theorem stub_gpio_not_ready_set (s : gpio_state) (p q : Int) (levels : List Int)
    (hq : ¬ (q < 0 ∨ q ≥ 64)) (hne : q ≠ p) (h : gpio_not_ready s p = true) :
    gpio_not_ready
      { gpio_initialized := s.gpio_initialized.set q.toNat 1, gpio_levels := levels } p = true := by
  simp only [gpio_not_ready, Bool.or_eq_true, decide_eq_true_eq, beq_iff_eq] at h ⊢
  rcases h with (h | h) | h
  · exact Or.inl (Or.inl h)
  · exact Or.inl (Or.inr h)
  · by_cases hp : p < 0
    · exact Or.inl (Or.inl hp)
    · right
      have hidx : q.toNat ≠ p.toNat := by omega
      rw [List.getD_eq_getElem?_getD, List.getElem?_set_ne hidx, ← List.getD_eq_getElem?_getD]
      exact h

theorem stub_gpio_not_ready_step (s : gpio_state) (p : Int) (op : gpio_op)
    (h : gpio_not_ready s p = true) (hnone : init_succeeded p s [op] = false) :
    gpio_not_ready (gpio_step s op).1 p = true := by
  cases op with
  | init pin mode_str =>
    simp only [init_succeeded, Bool.or_false, Bool.and_eq_false_iff, decide_eq_false_iff_not]
      at hnone
    simp only [gpio_step]
    unfold gpio_hw_init at hnone ⊢
    by_cases hr : pin < 0 ∨ pin ≥ 64
    · simpa [hr] using h
    · simp only [hr, if_false] at hnone ⊢
      apply stub_gpio_not_ready_set s p pin _ hr _ h
      rcases hnone with hne | hne
      · exact hne
      · exact absurd trivial hne
  | write pin level =>
    simp only [gpio_step, gpio_hw_write]
    split_ifs <;> exact h
  | read pin =>
    simp only [gpio_step, gpio_hw_read]
    split_ifs <;> exact h
  | set_pull pin pull_str =>
    simp only [gpio_step, gpio_hw_set_pull]
    split_ifs <;> exact h

theorem stub_gpio_not_ready_run (p : Int) (ops : List gpio_op) :
    ∀ s : gpio_state, gpio_not_ready s p = true → init_succeeded p s ops = false →
      gpio_not_ready (gpio_run s ops) p = true := by
  induction ops with
  | nil => intro s h _; simpa [gpio_run] using h
  | cons op ops ih =>
    intro s h hnone
    simp only [init_succeeded, Bool.or_eq_false_iff] at hnone
    have hstep := stub_gpio_not_ready_step s p op h (by simpa [init_succeeded] using hnone.1)
    exact ih _ hstep hnone.2

theorem stub_gpio_boot_not_ready (p : Int) : gpio_not_ready gpio_boot p = true := by
  simp only [gpio_not_ready, gpio_boot, Bool.or_eq_true, decide_eq_true_eq, beq_iff_eq]
  by_cases h : p.toNat < 64
  · right
    rw [List.getD_eq_getElem?_getD, List.getElem?_replicate]
    simp [h]
  · right
    rw [List.getD_eq_default]
    simp; omega

end Stub

/-- C7: in both builds, for every pin number `p` and every history of driver calls
since program start in which no `gpio_hw_init` for `p` returned 0, the functions
`gpio_hw_write`, `gpio_hw_read` and `gpio_hw_set_pull` on `p` return -1 for every
level and every pull string and leave the state (pin table, stored levels, hardware
calls made) as it was, and the three bindings raise a script error. -/
theorem gpio_uninitialized_fails (p : Int) (esp_ops : List Esp.gpio_op)
    (stub_ops : List Stub.gpio_op)
    (hesp : Esp.init_succeeded p Esp.gpio_boot esp_ops = false)
    (hstub : Stub.init_succeeded p Stub.gpio_boot stub_ops = false) :
    (∀ level ret, Esp.gpio_hw_write (Esp.gpio_run Esp.gpio_boot esp_ops) p level ret =
        (Esp.gpio_run Esp.gpio_boot esp_ops, -1)) ∧
    (∀ pad_level, Esp.gpio_hw_read (Esp.gpio_run Esp.gpio_boot esp_ops) p pad_level =
        (Esp.gpio_run Esp.gpio_boot esp_ops, -1)) ∧
    (∀ pull_str, Esp.gpio_hw_set_pull (Esp.gpio_run Esp.gpio_boot esp_ops) p pull_str =
        (Esp.gpio_run Esp.gpio_boot esp_ops, -1)) ∧
    (∀ level, Stub.gpio_hw_write (Stub.gpio_run Stub.gpio_boot stub_ops) p level =
        (Stub.gpio_run Stub.gpio_boot stub_ops, -1)) ∧
    (Stub.gpio_hw_read (Stub.gpio_run Stub.gpio_boot stub_ops) p =
        (Stub.gpio_run Stub.gpio_boot stub_ops, -1)) ∧
    (∀ pull_str, Stub.gpio_hw_set_pull (Stub.gpio_run Stub.gpio_boot stub_ops) p pull_str =
        (Stub.gpio_run Stub.gpio_boot stub_ops, -1)) ∧
    (∀ (V : Type) (JS_ToInt32 : V → Option Int) (JS_ToCString : V → Option String)
        (a0 : V) (rest : List V) (ret pad_level : Int), JS_ToInt32 a0 = some p →
      (∃ e, js_gpio_write JS_ToInt32 (fun s pin lv => Esp.gpio_hw_write s pin lv ret)
          (Esp.gpio_run Esp.gpio_boot esp_ops) (a0 :: rest) =
        (Esp.gpio_run Esp.gpio_boot esp_ops, js_result.exception e)) ∧
      js_gpio_read JS_ToInt32 (fun s pin => Esp.gpio_hw_read s pin pad_level)
          (Esp.gpio_run Esp.gpio_boot esp_ops) (a0 :: rest) =
        (Esp.gpio_run Esp.gpio_boot esp_ops, js_result.exception js_error.InternalError) ∧
      (∃ e, js_gpio_setPull JS_ToInt32 JS_ToCString Esp.gpio_hw_set_pull
          (Esp.gpio_run Esp.gpio_boot esp_ops) (a0 :: rest) =
        (Esp.gpio_run Esp.gpio_boot esp_ops, js_result.exception e)) ∧
      (∃ e, js_gpio_write JS_ToInt32 Stub.gpio_hw_write
          (Stub.gpio_run Stub.gpio_boot stub_ops) (a0 :: rest) =
        (Stub.gpio_run Stub.gpio_boot stub_ops, js_result.exception e)) ∧
      js_gpio_read JS_ToInt32 Stub.gpio_hw_read
          (Stub.gpio_run Stub.gpio_boot stub_ops) (a0 :: rest) =
        (Stub.gpio_run Stub.gpio_boot stub_ops, js_result.exception js_error.InternalError) ∧
      (∃ e, js_gpio_setPull JS_ToInt32 JS_ToCString Stub.gpio_hw_set_pull
          (Stub.gpio_run Stub.gpio_boot stub_ops) (a0 :: rest) =
        (Stub.gpio_run Stub.gpio_boot stub_ops, js_result.exception e))) := by
  have he := Esp.esp_gpio_not_ready_run p esp_ops _ (Esp.esp_gpio_boot_not_ready p) hesp
  have hs := Stub.stub_gpio_not_ready_run p stub_ops _ (Stub.stub_gpio_boot_not_ready p) hstub
  refine ⟨?_, ?_, ?_, ?_, ?_, ?_, ?_⟩
  · intro level ret; simp [Esp.gpio_hw_write, he]
  · intro pad; simp [Esp.gpio_hw_read, he]
  · intro pull; simp [Esp.gpio_hw_set_pull, he]
  · intro level; simp [Stub.gpio_hw_write, hs]
  · simp [Stub.gpio_hw_read, hs]
  · intro pull; simp [Stub.gpio_hw_set_pull, hs]
  · intro V toInt toStr a0 rest ret pad hp
    refine ⟨?_, ?_, ?_, ?_, ?_, ?_⟩
    · cases rest with
      | nil => exact ⟨_, rfl⟩
      | cons a1 rest =>
        cases h1 : toInt a1 <;> simp [js_gpio_write, hp, h1, Esp.gpio_hw_write, he]
    · simp [js_gpio_read, hp, Esp.gpio_hw_read, he]
    · cases rest with
      | nil => exact ⟨_, rfl⟩
      | cons a1 rest =>
        cases h1 : toStr a1 <;> simp [js_gpio_setPull, hp, h1, Esp.gpio_hw_set_pull, he]
    · cases rest with
      | nil => exact ⟨_, rfl⟩
      | cons a1 rest =>
        cases h1 : toInt a1 <;> simp [js_gpio_write, hp, h1, Stub.gpio_hw_write, hs]
    · simp [js_gpio_read, hp, Stub.gpio_hw_read, hs]
    · cases rest with
      | nil => exact ⟨_, rfl⟩
      | cons a1 rest =>
        cases h1 : toStr a1 <;> simp [js_gpio_setPull, hp, h1, Stub.gpio_hw_set_pull, hs]

theorem gpio_uninitialized_fails_witness :
    Esp.gpio_hw_read (Esp.gpio_run Esp.gpio_boot
      [Esp.gpio_op.init 4 "out" 0, Esp.gpio_op.init 5 "bogus" 0, Esp.gpio_op.init 5 "in" 1,
        Esp.gpio_op.write 5 1 0]) 5 1 =
      (Esp.gpio_run Esp.gpio_boot
        [Esp.gpio_op.init 4 "out" 0, Esp.gpio_op.init 5 "bogus" 0, Esp.gpio_op.init 5 "in" 1,
          Esp.gpio_op.write 5 1 0], -1) ∧
    Stub.gpio_hw_read (Stub.gpio_run Stub.gpio_boot
      [Stub.gpio_op.init 4 "out", Stub.gpio_op.init 99 "out", Stub.gpio_op.write 5 1]) 5 =
      (Stub.gpio_run Stub.gpio_boot
        [Stub.gpio_op.init 4 "out", Stub.gpio_op.init 99 "out", Stub.gpio_op.write 5 1], -1) :=
  have h := gpio_uninitialized_fails 5
    [Esp.gpio_op.init 4 "out" 0, Esp.gpio_op.init 5 "bogus" 0, Esp.gpio_op.init 5 "in" 1,
      Esp.gpio_op.write 5 1 0]
    [Stub.gpio_op.init 4 "out", Stub.gpio_op.init 99 "out", Stub.gpio_op.write 5 1]
    (by decide) (by decide)
  ⟨h.2.1 1, h.2.2.2.2.1⟩

/-- The ESP build of `gpio_hw_init` rejects every pin outside 0..63 and every mode
string other than the four documented ones without touching the state; whenever it
fails the pin table is unchanged, and when it succeeds the flag of that pin, and only
that flag, is set. -/
theorem Esp.gpio_hw_init_checks (s : Esp.gpio_state) (pin : Int) (mode_str : String)
    (config_ret : Int) :
    ((pin < 0 ∨ pin ≥ 64 ∨ mode_str ∉ ["out", "in", "in_pullup", "in_pulldown"]) →
      Esp.gpio_hw_init s pin mode_str config_ret = (s, -1)) ∧
    ((Esp.gpio_hw_init s pin mode_str config_ret).2 ≠ 0 →
      (Esp.gpio_hw_init s pin mode_str config_ret).1.gpio_initialized = s.gpio_initialized) ∧
    ((Esp.gpio_hw_init s pin mode_str config_ret).2 = 0 →
      (Esp.gpio_hw_init s pin mode_str config_ret).1.gpio_initialized =
        s.gpio_initialized.set pin.toNat 1) := by
  unfold Esp.gpio_hw_init
  by_cases hr : pin < 0 ∨ pin ≥ MAX_GPIO_PINS <;>
    by_cases m1 : mode_str = "out" <;> by_cases m2 : mode_str = "in" <;>
    by_cases m3 : mode_str = "in_pullup" <;> by_cases m4 : mode_str = "in_pulldown" <;>
    by_cases hc : config_ret = ESP_OK <;>
    simp [hr, m1, m2, m3, m4, hc] <;>
    (simp only [MAX_GPIO_PINS] at hr; omega)

/-- C8: the stub build of `gpio_hw_write` stores the level as passed, without the
coercion to 0/1 that the ESP build applies: on pin 5 initialised as output,
`write(5, 2)` succeeds and the following read returns 2; after `write(5, -1)` the
read returns -1 and the binding `js_gpio_read` raises an error. -/
theorem stub_gpio_read_returns_raw_level :
    (Stub.gpio_hw_init Stub.gpio_boot 5 "out").2 = 0 ∧
    (Stub.gpio_hw_write (Stub.gpio_hw_init Stub.gpio_boot 5 "out").1 5 2).2 = 0 ∧
    (Stub.gpio_hw_read
      (Stub.gpio_hw_write (Stub.gpio_hw_init Stub.gpio_boot 5 "out").1 5 2).1 5).2 = 2 ∧
    (Stub.gpio_hw_write (Stub.gpio_hw_init Stub.gpio_boot 5 "out").1 5 (-1)).2 = 0 ∧
    (Stub.gpio_hw_read
      (Stub.gpio_hw_write (Stub.gpio_hw_init Stub.gpio_boot 5 "out").1 5 (-1)).1 5).2 = -1 ∧
    (js_gpio_read some Stub.gpio_hw_read
      (Stub.gpio_hw_write (Stub.gpio_hw_init Stub.gpio_boot 5 "out").1 5 (-1)).1 [5]).2 =
        js_result.exception js_error.InternalError ∧
    (Esp.gpio_hw_write (Esp.gpio_hw_init Esp.gpio_boot 5 "out" 0).1 5 2 0).1.calls =
      [Esp.gpio_call.gpio_config 5 Esp.gpio_mode_t.GPIO_MODE_OUTPUT false false,
        Esp.gpio_call.gpio_set_level 5 1] := by
  refine ⟨by decide, by decide, by decide, by decide, by decide, by decide, ?_⟩
  simp [Esp.gpio_hw_write, Esp.gpio_hw_init, Esp.gpio_not_ready, Esp.gpio_boot, MAX_GPIO_PINS,
    ESP_OK]

/-- C9: the stub build of `gpio_hw_init` does not look at the mode string:
`init(5, "bogus")` returns 0 there, sets the flag of pin 5 and the binding returns
undefined, whereas the ESP build rejects the same call and `init(999, "out")` fails in
both builds. -/
theorem stub_gpio_init_accepts_bogus_mode :
    (Stub.gpio_hw_init Stub.gpio_boot 5 "bogus").2 = 0 ∧
    (Stub.gpio_hw_init Stub.gpio_boot 5 "bogus").1.gpio_initialized.getD 5 0 = 1 ∧
    (js_gpio_init (fun v : Int ⊕ String => v.getLeft?) (fun v : Int ⊕ String => v.getRight?)
      Stub.gpio_hw_init Stub.gpio_boot [Sum.inl 5, Sum.inr "bogus"]).2 =
        js_result.JS_UNDEFINED ∧
    Esp.gpio_hw_init Esp.gpio_boot 5 "bogus" 0 = (Esp.gpio_boot, -1) ∧
    Stub.gpio_hw_init Stub.gpio_boot 999 "out" = (Stub.gpio_boot, -1) ∧
    Esp.gpio_hw_init Esp.gpio_boot 999 "out" 0 = (Esp.gpio_boot, -1) := by
  refine ⟨by decide, by decide, by decide, ?_, by decide, by decide⟩
  exact (Esp.gpio_hw_init_checks Esp.gpio_boot 5 "bogus" 0).1 (Or.inr (Or.inr (by decide)))

end Mqjs
